import Mathlib

/-!
Verification development for the TalentScout interview assistant
(`app.py`, `utils.py`, `ai_bridge.py`, `openai_helper.py`,
`anthropic_helper.py`).

The embedding models the interview stage state machine and the
LLM-orchestration layer.  Pure string manipulation from Python
(`str.split`, `str.strip`, `str.replace`, `", ".join`) is re-implemented
on `List Char` / `String`; provider SDK calls are modelled as supplied
behaviour functions returning `Except String String` (an `.error` models
a raised exception); `json.loads` is modelled by a parser for the
canonical three-field evaluation object that the evaluation prompt
requests (it rejects any text that does not start with the object, as
`json.loads` does on code-fenced text).
-/

/-! ## Models of the Python string primitives used by the repository -/

/-- Model of Python `", ".join` / `sep.join(items)`. -/
def pyJoin (sep : String) : List String → String
  | [] => ""
  | [x] => x
  | x :: y :: rest => x ++ sep ++ pyJoin sep (y :: rest)

/-- Model of Python `s.split("\n")` on the character list: splits at every
newline, keeping empty pieces, and yields `[""]` on the empty string. -/
def pySplitNlChars : List Char → List (List Char)
  | [] => [[]]
  | c :: rest =>
    let r := pySplitNlChars rest
    if c = '\n' then [] :: r
    else
      match r with
      | h :: t => (c :: h) :: t
      | [] => [[c]]

/-- Model of Python `s.split("\n")`. -/
def pySplitNl (s : String) : List String :=
  (pySplitNlChars s.toList).map (fun l => String.mk l)

/-- The whitespace characters Python `str.strip()` removes (ASCII range). -/
def pyIsSpace (c : Char) : Bool :=
  c = ' ' || c = '\t' || c = '\n' || c = '\r' || c = Char.ofNat 11 || c = Char.ofNat 12

/-- Model of Python `s.strip()` on a character list. -/
def pyStripChars (s : List Char) : List Char :=
  ((s.dropWhile pyIsSpace).reverse.dropWhile pyIsSpace).reverse

/-- Model of Python `s.strip()`. -/
def pyStrip (s : String) : String :=
  String.mk (pyStripChars s.toList)

/-- Fuelled worker for `pyReplaceDel`: deletes every (left-to-right,
non-overlapping) occurrence of `pat` from the list, as Python
`s.replace(pat, "")` does.  The fuel is at least the list length, so it
never runs out for a non-empty pattern. -/
def pyDelOccF (pat : List Char) : Nat → List Char → List Char
  | _, [] => []
  | 0, s => s
  | n + 1, c :: rest =>
    if pat.isPrefixOf (c :: rest) then pyDelOccF pat n (rest.drop (pat.length - 1))
    else c :: pyDelOccF pat n rest

/-- Model of Python `s.replace(pat, "")` for a non-empty `pat`. -/
def pyReplaceDel (pat : List Char) (s : List Char) : List Char :=
  pyDelOccF pat s.length s

/-! ## Data model: messages, candidate info, evaluation objects -/

/-- Chat role, as the `"role"` field of a message dictionary. -/
inductive Role
  | user
  | assistant
deriving DecidableEq

/-- One chat message, `{"role": ..., "content": ...}`. -/
structure Message where
  role : Role
  content : String
deriving DecidableEq

/-- A value stored in the `candidate_info` dictionary: a string, a number
(years of experience), or a list of technology names (`tech_stack`). -/
inductive CValue
  | str (s : String)
  | num (n : Nat)
  | list (l : List String)
deriving DecidableEq

/-- The `candidate_info` dictionary, as an insertion-ordered association
list with unique keys (Python dict preserves insertion order). -/
abbrev CandidateInfo := List (String × CValue)

/-- Model of `candidate_info[key] = value`: updates the entry in place if
the key exists, otherwise appends it. -/
def setInfo : CandidateInfo → String → CValue → CandidateInfo
  | [], k, v => [(k, v)]
  | (k0, v0) :: rest, k, v =>
    if k0 = k then (k, v) :: rest else (k0, v0) :: setInfo rest k v

/-- Model of `candidate_info.get(key)`. -/
def lookupInfo : CandidateInfo → String → Option CValue
  | [], _ => none
  | (k0, v0) :: rest, k => if k0 = k then some v0 else lookupInfo rest k

/-- Model of `candidate_info["tech_stack"]` where the code requires the
stored technology list; `none` models the `KeyError` raised when the key
is absent. -/
def lookupTechStack (info : CandidateInfo) : Option (List String) :=
  match lookupInfo info "tech_stack" with
  | some (.list l) => some l
  | _ => none

/-- Python `str(value)` for a `CValue`, used when rendering candidate
info lines that are not a technology list. -/
def cvalueStr : CValue → String
  | .str s => s
  | .num n => toString n
  | .list l => "[" ++ pyJoin ", " (l.map (fun x => "'" ++ x ++ "'")) ++ "]"

/-- The structured evaluation object `{assessment, response, follow_up}`
returned by `evaluate_technical_response`. -/
structure EvalResult where
  assessment : String
  response : String
  follow_up : String
deriving DecidableEq

/-! ## Model of `json.loads` on the canonical evaluation object

The evaluation prompt instructs the model to return a JSON object with
exactly the fields `assessment`, `response`, `follow_up`.  The parser
below models `json.loads` restricted to that canonical serialization
(fixed key order, one space after each colon, string fields without
escapes).  Like `json.loads`, it fails on any text that does not begin
with the object — in particular on text still carrying a Markdown code
fence. -/

/-- Reads the characters of a JSON string field up to (not including) the
closing double quote; fails at a backslash or at the end of input. -/
def takeStrField : List Char → Option (List Char × List Char)
  | [] => none
  | c :: rest =>
    if c = '\"' then some ([], c :: rest)
    else if c = '\\' then none
    else
      match takeStrField rest with
      | some (f, r) => some (c :: f, r)
      | none => none

/-- Consumes the exact literal `pat` from the front of `s`. -/
def dropLit (pat s : List Char) : Option (List Char) :=
  if pat.isPrefixOf s then some (s.drop pat.length) else none

/-- Opening of the canonical evaluation object, up to the first field. -/
def litAssess : String := "\x7b\"assessment\": \""

/-- Separator between the `assessment` and `response` fields. -/
def litResp : String := "\", \"response\": \""

/-- Separator between the `response` and `follow_up` fields. -/
def litFollow : String := "\", \"follow_up\": \""

/-- Closing of the canonical evaluation object. -/
def litEnd : String := "\"\x7d"

/-- Character-list form of `litAssess`. -/
def litAssessL : List Char := litAssess.toList

/-- Character-list form of `litResp`. -/
def litRespL : List Char := litResp.toList

/-- Character-list form of `litFollow`. -/
def litFollowL : List Char := litFollow.toList

/-- Character-list form of `litEnd`. -/
def litEndL : List Char := litEnd.toList

/-- `litRespL` without its leading double quote. -/
def litRespTailL : List Char := (", \"response\": \"").toList

/-- `litFollowL` without its leading double quote. -/
def litFollowTailL : List Char := (", \"follow_up\": \"").toList

/-- `litEndL` without its leading double quote. -/
def litEndTailL : List Char := ("\x7d").toList

/-- Model of `json.loads` restricted to the canonical three-field
evaluation object; `none` models `json.JSONDecodeError`. -/
def parseEvalJson (s : List Char) : Option EvalResult :=
  match dropLit litAssessL s with
  | none => none
  | some r1 =>
    match takeStrField r1 with
    | none => none
    | some (a, r2) =>
      match dropLit litRespL r2 with
      | none => none
      | some r3 =>
        match takeStrField r3 with
        | none => none
        | some (b, r4) =>
          match dropLit litFollowL r4 with
          | none => none
          | some r5 =>
            match takeStrField r5 with
            | none => none
            | some (c, r6) =>
              match dropLit litEndL r6 with
              | none => none
              | some r7 =>
                if r7 = [] then some ⟨String.mk a, String.mk b, String.mk c⟩
                else none

/-- Serialization of the canonical evaluation object; a provider that
answers the evaluation prompt with exactly the requested JSON produces
this text. -/
def serializeEvalJson (a b c : String) : String :=
  litAssess ++ a ++ litResp ++ b ++ litFollow ++ c ++ litEnd

/-! ## Provider configuration and behaviour

`Config` records which provider slot is configured (`has_openai`,
`has_anthropic` in `ai_bridge.py`, fixed at process start).  A
`ProviderBehavior` gives the outcome of each raw SDK call of one
provider: `.ok text` is a returned completion, `.error e` a raised
exception (network, auth, quota, malformed response). -/

/-- Which providers are configured (`has_openai` / `has_anthropic`). -/
structure Config where
  has_openai : Bool
  has_anthropic : Bool

/-- Outcomes of one provider's raw completion calls. -/
structure ProviderBehavior where
  chatText : List Message → Nat → CandidateInfo → Except String String
  questionsText : List String → Except String String
  evalText : String → String → List String → Except String String

/-- The two providers' behaviours: `oai` primary, `ant` secondary. -/
structure Behaviors where
  oai : ProviderBehavior
  ant : ProviderBehavior

/-! ## System prompt builder (`get_system_prompt`)

The function is textually identical in `openai_helper.py` (lines
160-227) and `anthropic_helper.py` (lines 168-235); it is modelled once.
-/

/-- The fixed preamble of `get_system_prompt`. -/
def basePromptPreamble : String :=
  "You are an intelligent hiring assistant for TalentScout, a recruitment agency specializing in tech placements. You are conducting a preliminary technical interview with a candidate. Be professional but conversational and friendly.\n\nCandidate information collected so far:\n"

/-- Stage 1 (INTRODUCTION) instruction block. -/
def stagePromptIntro : String :=
  "\nYou are at the INTRODUCTION stage of the interview.\nIntroduce yourself as the TalentScout interview assistant. \nThe candidate has just provided their name. \nAcknowledge their name and ask for their contact information (email and phone number).\nBe friendly and professional.\n"

/-- Stage 2 (CONTACT INFORMATION) instruction block. -/
def stagePromptContact : String :=
  "\nYou are at the CONTACT INFORMATION stage of the interview.\nThe candidate has just provided their contact details.\nThank them and now ask about their years of experience and what position they're looking for.\nKeep your response concise and professional.\n"

/-- Stage 3 (EXPERIENCE & POSITION) instruction block. -/
def stagePromptExperience : String :=
  "\nYou are at the EXPERIENCE & POSITION stage of the interview.\nThe candidate has just shared their experience level and desired position.\nAcknowledge this information and now ask them to select their technical skills from a list that will be shown.\nEncourage them to select all technologies they are proficient in.\n"

/-- Stage 4 (TECHNICAL SKILLS) instruction block. -/
def stagePromptSkills : String :=
  "\nYou are at the TECHNICAL SKILLS stage of the interview.\nThe candidate has just selected their technical stack.\nAcknowledge their skills and explain that you'll ask a few technical questions to assess their expertise.\nTell them you'll start with questions specific to their selected technologies.\n"

/-- Stage 5 (TECHNICAL ASSESSMENT) instruction block. -/
def stagePromptAssessment : String :=
  "\nYou are at the TECHNICAL ASSESSMENT stage of the interview.\nListen carefully to the candidate's answers and provide thoughtful follow-up questions.\nEvaluate their technical knowledge but maintain a supportive tone.\nFocus on their problem-solving approach and depth of understanding.\n"

/-- Stage 6 (CONCLUSION) instruction block. -/
def stagePromptConclusion : String :=
  "\nYou are at the CONCLUSION stage of the interview.\nThank the candidate for their time and responses.\nSummarize what you've learned about their background and skills.\nExplain that a TalentScout recruiter will contact them soon to discuss potential opportunities.\nProvide a positive and encouraging conclusion to the interview.\n"

/-- The `stage_prompts` dictionary: the instruction block keyed by the
interview stage, absent for unmapped stages. -/
def stagePrompts : Nat → Option String
  | 1 => some stagePromptIntro
  | 2 => some stagePromptContact
  | 3 => some stagePromptExperience
  | 4 => some stagePromptSkills
  | 5 => some stagePromptAssessment
  | 6 => some stagePromptConclusion
  | _ => none

/-- One rendered candidate-info line: `tech_stack` stored as a list is
comma-joined, every other field is rendered `- key: value`. -/
def renderInfoLine (kv : String × CValue) : String :=
  match kv with
  | (k, v) =>
    if k = "tech_stack" then
      match v with
      | .list l => "- " ++ k ++ ": " ++ pyJoin ", " l ++ "\n"
      | _ => "- " ++ k ++ ": " ++ cvalueStr v ++ "\n"
    else "- " ++ k ++ ": " ++ cvalueStr v ++ "\n"

/-- Model of `get_system_prompt(interview_stage, candidate_info)`:
preamble, then one appended line per candidate-info entry, then the
stage instruction block when the stage is mapped. -/
def get_system_prompt (stage : Nat) (info : CandidateInfo) : String :=
  let base := basePromptPreamble
  let base := info.foldl (fun acc kv => acc ++ renderInfoLine kv) base
  match stagePrompts stage with
  | some block => base ++ block
  | none => base

/-! ## Provider helper modules

`openai_helper.py` and `anthropic_helper.py`: each generation function
forwards the SDK outcome (their `try`/`except` blocks log and re-raise),
and each `evaluate_technical_response` parses the returned text as JSON,
falling back to a fixed object on a parse failure.  Only the Anthropic
helper strips Markdown code fences before parsing. -/

/-- Fallback object of `openai_helper.evaluate_technical_response` when
`json.loads` fails (lines 150-154). -/
def openaiEvalParseFallback : EvalResult :=
  ⟨"Unable to properly evaluate the response",
   "Thank you for your answer. Let's move on to the next question.",
   "Could you tell me more about your practical experience with this technology?"⟩

/-- Fallback object of `anthropic_helper.evaluate_technical_response`
when `json.loads` fails (lines 158-162). -/
def anthropicEvalParseFallback : EvalResult :=
  ⟨"Unable to properly evaluate the response",
   "Thank you for your answer. Let's move on to the next question.",
   "Could you tell me more about your practical experience with this technology?"⟩

/-- Model of `openai_helper.generate_chat_response`: the SDK outcome is
returned on success and the exception re-raised on failure. -/
def openai_generate_chat_response (beh : ProviderBehavior) (hist : List Message)
    (stage : Nat) (info : CandidateInfo) : Except String String :=
  beh.chatText hist stage info

/-- Model of `openai_helper.generate_technical_questions`. -/
def openai_generate_technical_questions (beh : ProviderBehavior)
    (ts : List String) : Except String String :=
  beh.questionsText ts

/-- Model of `openai_helper.evaluate_technical_response`: parses the
returned text directly with `json.loads` (no code-fence stripping,
lines 143-154). -/
def openai_evaluate_technical_response (beh : ProviderBehavior)
    (q a : String) (ts : List String) : Except String EvalResult :=
  match beh.evalText q a ts with
  | .error e => .error e
  | .ok text =>
    match parseEvalJson text.toList with
    | some r => .ok r
    | none => .ok openaiEvalParseFallback

/-- Model of `anthropic_helper.generate_chat_response`. -/
def anthropic_generate_chat_response (beh : ProviderBehavior) (hist : List Message)
    (stage : Nat) (info : CandidateInfo) : Except String String :=
  beh.chatText hist stage info

/-- Model of `anthropic_helper.generate_technical_questions`. -/
def anthropic_generate_technical_questions (beh : ProviderBehavior)
    (ts : List String) : Except String String :=
  beh.questionsText ts

/-- The fence cleaning of `anthropic_helper.evaluate_technical_response`
(line 150): `text.replace("```json", "").replace("```", "").strip()`. -/
def anthropic_clean (text : String) : List Char :=
  pyStripChars (pyReplaceDel "```".toList (pyReplaceDel "```json".toList text.toList))

/-- Model of `anthropic_helper.evaluate_technical_response`: strips code
fences, then parses (lines 146-162). -/
def anthropic_evaluate_technical_response (beh : ProviderBehavior)
    (q a : String) (ts : List String) : Except String EvalResult :=
  match beh.evalText q a ts with
  | .error e => .error e
  | .ok text =>
    match parseEvalJson (anthropic_clean text) with
    | some r => .ok r
    | none => .ok anthropicEvalParseFallback

/-! ## Model Gateway (`ai_bridge.py`)

Each public operation tries the primary (OpenAI) provider when
configured, falls back to the secondary (Anthropic) provider on an
exception, and returns a fixed fallback value when every configured
provider raised or none is configured.  An `.error` result would model
an exception escaping to the caller. -/

/-- Chat fallback with error detail (`ai_bridge.py` lines 71 and 80). -/
def chatFallbackErr (e : String) : String :=
  "I apologize, but I'm having trouble connecting to our AI systems. Please try again later or contact TalentScout directly. Error: " ++ e

/-- Chat fallback when no provider is configured (line 84). -/
def chatFallbackUnavailable : String :=
  "I apologize, but I'm unable to connect to our AI systems. Please contact TalentScout directly for assistance."

/-- Technical-questions fallback with error detail (lines 105 and 114). -/
def questionsFallbackErr (e : String) : String :=
  "I apologize, but I'm having trouble generating technical questions. Please provide more details about your experience with these technologies instead. Error: " ++ e

/-- Technical-questions fallback when no provider is configured (line 118). -/
def questionsFallbackUnavailable : String :=
  "I apologize, but I'm unable to generate technical questions at this time. Please describe your experience with these technologies in your own words."

/-- Evaluation fallback when a configured provider raised and no further
provider is left (lines 141-146 and 155-160). -/
def evalFallbackFailed : EvalResult :=
  ⟨"Unable to evaluate response",
   "Thank you for your answer. I'm having some technical difficulties with my evaluation system.",
   "Can you tell me more about your experience with this technology?"⟩

/-- Evaluation fallback when no provider is configured (lines 164-169). -/
def evalFallbackUnavailable : EvalResult :=
  ⟨"Unable to evaluate response",
   "Thank you for your answer. I'm currently unable to access our evaluation system.",
   "Can you tell me more about your experience with this technology?"⟩

/-- Model of `ai_bridge.generate_chat_response` (lines 50-84). -/
def bridge_generate_chat_response (cfg : Config) (beh : Behaviors)
    (hist : List Message) (stage : Nat) (info : CandidateInfo) : Except String String :=
  if cfg.has_openai then
    match openai_generate_chat_response beh.oai hist stage info with
    | .ok r => .ok r
    | .error e =>
      if cfg.has_anthropic then
        match anthropic_generate_chat_response beh.ant hist stage info with
        | .ok r => .ok r
        | .error e2 => .ok (chatFallbackErr e2)
      else .ok (chatFallbackErr e)
  else if cfg.has_anthropic then
    match anthropic_generate_chat_response beh.ant hist stage info with
    | .ok r => .ok r
    | .error e2 => .ok (chatFallbackErr e2)
  else .ok chatFallbackUnavailable

/-- Model of `ai_bridge.generate_technical_questions` (lines 86-118). -/
def bridge_generate_technical_questions (cfg : Config) (beh : Behaviors)
    (ts : List String) : Except String String :=
  if cfg.has_openai then
    match openai_generate_technical_questions beh.oai ts with
    | .ok r => .ok r
    | .error e =>
      if cfg.has_anthropic then
        match anthropic_generate_technical_questions beh.ant ts with
        | .ok r => .ok r
        | .error e2 => .ok (questionsFallbackErr e2)
      else .ok (questionsFallbackErr e)
  else if cfg.has_anthropic then
    match anthropic_generate_technical_questions beh.ant ts with
    | .ok r => .ok r
    | .error e2 => .ok (questionsFallbackErr e2)
  else .ok questionsFallbackUnavailable

/-- Model of `ai_bridge.evaluate_technical_response` (lines 120-169). -/
def bridge_evaluate_technical_response (cfg : Config) (beh : Behaviors)
    (q a : String) (ts : List String) : Except String EvalResult :=
  if cfg.has_openai then
    match openai_evaluate_technical_response beh.oai q a ts with
    | .ok r => .ok r
    | .error _ =>
      if cfg.has_anthropic then
        match anthropic_evaluate_technical_response beh.ant q a ts with
        | .ok r => .ok r
        | .error _ => .ok evalFallbackFailed
      else .ok evalFallbackFailed
  else if cfg.has_anthropic then
    match anthropic_evaluate_technical_response beh.ant q a ts with
    | .ok r => .ok r
    | .error _ => .ok evalFallbackFailed
  else .ok evalFallbackUnavailable

/-! ## Session state and Stage Controller (`utils.py`, `app.py`)

`SessionState` mirrors the fields of `initialize_session_state`.  Each
input handler returns `none` when the Python code would raise
(`IndexError` on the question list, `KeyError` on `candidate_info`, or a
provider exception escaping the gateway), and otherwise the updated
state together with the list of `evaluate_technical_response` calls the
turn issued. -/

/-- The per-session mutable state (`initialize_session_state`). -/
structure SessionState where
  chat_history : List Message
  interview_stage : Nat
  candidate_info : CandidateInfo
  technical_questions : List String
  current_question_index : Nat
  evaluation_in_progress : Bool
deriving DecidableEq

/-- The fresh session: empty history, stage 0, no candidate info, no
questions, cursor 0. -/
def initialize_session_state : SessionState :=
  ⟨[], 0, [], [], 0, false⟩

/-- Model of `update_chat_history`: appends one message. -/
def update_chat_history (s : SessionState) (role : Role) (content : String) : SessionState :=
  { s with chat_history := s.chat_history ++ [⟨role, content⟩] }

/-- One recorded call to the gateway's `evaluate_technical_response`. -/
structure EvalCall where
  question : String
  answer : String
  tech_stack : List String
deriving DecidableEq

/-- Fallback assistant message of `handle_user_response` when question
generation produced an empty list (`utils.py` line 123). -/
def degradedAssessmentMsg : String :=
  "Let's discuss your technical experience. What projects have you worked on recently?"

/-- The fixed welcome message emitted on the first render (`app.py`
line 82). -/
def initialMessage : String :=
  "Hello! I'm the TalentScout interview assistant. I'm here to learn about your skills and experience for potential tech positions. Let's start with your name."

/-- Model of `utils.handle_user_response` (lines 82-164): processes one
text input according to the current interview stage.  `none` models an
uncaught exception; otherwise the new state and the evaluation calls
issued this turn. -/
def handle_user_response (cfg : Config) (beh : Behaviors)
    (s : SessionState) (user_input : String) : Option (SessionState × List EvalCall) :=
  let s := update_chat_history s .user user_input
  if s.interview_stage = 1 then
    let s := { s with candidate_info := setInfo s.candidate_info "name" (.str user_input) }
    match bridge_generate_chat_response cfg beh s.chat_history s.interview_stage s.candidate_info with
    | .error _ => none
    | .ok resp =>
      let s := update_chat_history s .assistant resp
      some ({ s with interview_stage := 2 }, [])
  else if s.interview_stage = 5 then
    if s.technical_questions = [] then
      match lookupTechStack s.candidate_info with
      | none => none
      | some ts =>
        match bridge_generate_technical_questions cfg beh ts with
        | .error _ => none
        | .ok questions =>
          let tq := (pySplitNl questions).filter (fun q => pyStrip q ≠ "")
          let s := { s with technical_questions := tq, current_question_index := 0 }
          match tq with
          | first :: _ => some (update_chat_history s .assistant first, [])
          | [] => some (update_chat_history s .assistant degradedAssessmentMsg, [])
    else
      match s.technical_questions.get? s.current_question_index with
      | none => none
      | some current_question =>
        match lookupTechStack s.candidate_info with
        | none => none
        | some ts =>
          match bridge_evaluate_technical_response cfg beh current_question user_input ts with
          | .error _ => none
          | .ok evaluation =>
            let s := update_chat_history s .assistant (evaluation.response ++ " " ++ evaluation.follow_up)
            let s := { s with current_question_index := s.current_question_index + 1 }
            if s.current_question_index ≥ s.technical_questions.length ∨ s.current_question_index ≥ 5 then
              let s := { s with interview_stage := 6 }
              match bridge_generate_chat_response cfg beh s.chat_history s.interview_stage s.candidate_info with
              | .error _ => none
              | .ok conclusion =>
                some (update_chat_history s .assistant conclusion, [⟨current_question, user_input, ts⟩])
            else some (s, [⟨current_question, user_input, ts⟩])
  else
    match bridge_generate_chat_response cfg beh s.chat_history s.interview_stage s.candidate_info with
    | .error _ => none
    | .ok resp => some (update_chat_history s .assistant resp, [])

/-- One user-visible input event of `app.py`: the automatic welcome on
first render, a chat text submission, or one of the three stage forms. -/
inductive UserEvent
  | start
  | chat (text : String)
  | contactForm (email phone : String)
  | expForm (years : Nat) (position : String)
  | techForm (selected : List String)

/-- Model of one processed input of `app.py` (lines 75-173): the welcome
block, the three stage forms (each rendered and submittable only at its
stage; the tech-stack form additionally requires a non-empty selection),
and the free-text path through `handle_user_response` (requiring
non-empty text).  An event arriving at a stage whose widget is not
rendered leaves the state unchanged. -/
def app_step (cfg : Config) (beh : Behaviors)
    (s : SessionState) (ev : UserEvent) : Option (SessionState × List EvalCall) :=
  match ev with
  | .start =>
    if s.chat_history.length = 0 then
      some ({ update_chat_history s .assistant initialMessage with interview_stage := 1 }, [])
    else some (s, [])
  | .chat text =>
    if s.interview_stage ≠ 2 ∧ s.interview_stage ≠ 3 ∧ s.interview_stage ≠ 4 ∧ text ≠ "" then
      handle_user_response cfg beh s text
    else some (s, [])
  | .contactForm email phone =>
    if s.interview_stage = 2 then
      let contact_str := "Email: " ++ email ++ ", Phone: " ++ phone
      let s := update_chat_history s .user contact_str
      let s := { s with candidate_info := setInfo s.candidate_info "contact" (.str contact_str) }
      match bridge_generate_chat_response cfg beh s.chat_history s.interview_stage s.candidate_info with
      | .error _ => none
      | .ok resp =>
        some ({ update_chat_history s .assistant resp with interview_stage := 3 }, [])
    else some (s, [])
  | .expForm years position =>
    if s.interview_stage = 3 then
      let exp_str := "Experience: " ++ toString years ++ " years, Desired position: " ++ position
      let s := update_chat_history s .user exp_str
      let s := { s with candidate_info := setInfo s.candidate_info "experience" (.num years) }
      let s := { s with candidate_info := setInfo s.candidate_info "position" (.str position) }
      match bridge_generate_chat_response cfg beh s.chat_history s.interview_stage s.candidate_info with
      | .error _ => none
      | .ok resp =>
        some ({ update_chat_history s .assistant resp with interview_stage := 4 }, [])
    else some (s, [])
  | .techForm selected =>
    if s.interview_stage = 4 ∧ selected ≠ [] then
      let tech_str := "Tech skills: " ++ pyJoin ", " selected
      let s := update_chat_history s .user tech_str
      let s := { s with candidate_info := setInfo s.candidate_info "tech_stack" (.list selected) }
      match bridge_generate_chat_response cfg beh s.chat_history s.interview_stage s.candidate_info with
      | .error _ => none
      | .ok resp =>
        some ({ update_chat_history s .assistant resp with interview_stage := 5 }, [])
    else some (s, [])

/-- Runs a sequence of input events from a state, stopping at the first
uncaught exception and concatenating the evaluation calls. -/
def run_events (cfg : Config) (beh : Behaviors)
    (s : SessionState) : List UserEvent → Option (SessionState × List EvalCall)
  | [] => some (s, [])
  | ev :: rest =>
    match app_step cfg beh s ev with
    | none => none
    | some (s1, calls) =>
      match run_events cfg beh s1 rest with
      | none => none
      | some (s2, calls2) => some (s2, calls ++ calls2)

/-! ## Supporting definitions for the statements -/

/-- Concatenation of a list of strings (used to state the shape of the
system prompt). -/
def concatLines : List String → String
  | [] => ""
  | x :: xs => x ++ concatLines xs

/-- A string usable as a JSON string field without escaping: no double
quote, no backslash, and no backtick (so code-fence stripping cannot
touch it). -/
def EvalFieldSafe (s : String) : Prop :=
  ∀ ch ∈ s.data, ch ≠ '\"' ∧ ch ≠ '\\' ∧ ch ≠ '`'

/-- A provider response carrying the evaluation JSON wrapped in Markdown
code fences. -/
def fencedText (s : String) : String :=
  "```json\n" ++ s ++ "\n```"

/-- The session-state invariant maintained by every processed input:
the cursor is capped by `min(len(technical_questions), 5)`; at stage 5 a
non-empty tech stack is recorded and, while questions exist, the cursor
is strictly inside both bounds; any stage past 0 has a non-empty chat
history; before stage 5 no questions were generated. -/
def SessionInv (s : SessionState) : Prop :=
  s.current_question_index ≤ min s.technical_questions.length 5 ∧
  (s.interview_stage = 5 → ∃ ts, lookupTechStack s.candidate_info = some ts ∧ ts ≠ []) ∧
  (s.interview_stage = 5 → s.technical_questions ≠ [] →
    s.current_question_index < s.technical_questions.length ∧ s.current_question_index < 5) ∧
  (s.interview_stage ≠ 0 → s.chat_history ≠ []) ∧
  (s.interview_stage < 5 → s.technical_questions = [] ∧ s.current_question_index = 0)

/-- Behaviour where both providers succeed on every call. -/
def behAllOk : Behaviors :=
  ⟨⟨fun _ _ _ => .ok "primary chat", fun _ => .ok "primary questions",
    fun _ _ _ => .ok (serializeEvalJson "pa" "pr" "pf")⟩,
   ⟨fun _ _ _ => .ok "secondary chat", fun _ => .ok "secondary questions",
    fun _ _ _ => .ok (serializeEvalJson "sa" "sr" "sf")⟩⟩

/-- Behaviour where the primary provider raises and the secondary
succeeds on every call. -/
def behOaiFail : Behaviors :=
  ⟨⟨fun _ _ _ => .error "boom", fun _ => .error "boom",
    fun _ _ _ => .error "boom"⟩,
   ⟨fun _ _ _ => .ok "secondary chat", fun _ => .ok "secondary questions",
    fun _ _ _ => .ok (serializeEvalJson "sa" "sr" "sf")⟩⟩

/-- Behaviour where both providers raise on every call. -/
def behAllFail : Behaviors :=
  ⟨⟨fun _ _ _ => .error "boom", fun _ => .error "boom",
    fun _ _ _ => .error "boom"⟩,
   ⟨fun _ _ _ => .error "bam", fun _ => .error "bam",
    fun _ _ _ => .error "bam"⟩⟩

/-- Behaviour where both providers answer the evaluation request with
the canonical JSON object wrapped in ```json code fences. -/
def behFencedEval : Behaviors :=
  ⟨⟨fun _ _ _ => .ok "primary chat", fun _ => .ok "primary questions",
    fun _ _ _ => .ok (fencedText (serializeEvalJson "A" "B" "C"))⟩,
   ⟨fun _ _ _ => .ok "secondary chat", fun _ => .ok "secondary questions",
    fun _ _ _ => .ok (fencedText (serializeEvalJson "A" "B" "C"))⟩⟩

/-! ## Theorems -/

/-- Totality of the gateway chat operation: every configuration and
provider behaviour yields an `.ok` value. -/
lemma bridge_chat_total (cfg : Config) (beh : Behaviors)
    (hist : List Message) (stage : Nat) (info : CandidateInfo) :
    ∃ v, bridge_generate_chat_response cfg beh hist stage info = Except.ok v := by
  unfold bridge_generate_chat_response
  repeat' split
  all_goals exact ⟨_, rfl⟩

/-- Totality of the gateway technical-questions operation. -/
lemma bridge_questions_total (cfg : Config) (beh : Behaviors) (ts : List String) :
    ∃ v, bridge_generate_technical_questions cfg beh ts = Except.ok v := by
  unfold bridge_generate_technical_questions
  repeat' split
  all_goals exact ⟨_, rfl⟩

/-- Totality of the gateway evaluation operation. -/
lemma bridge_eval_total (cfg : Config) (beh : Behaviors)
    (q a : String) (ts : List String) :
    ∃ v, bridge_evaluate_technical_response cfg beh q a ts = Except.ok v := by
  unfold bridge_evaluate_technical_response
  repeat' split
  all_goals exact ⟨_, rfl⟩

/-- C1: every public Model Gateway operation is total and fail-soft: for
every provider configuration (neither, only primary, only secondary,
both) and every pattern of provider-call outcomes,
`generate_chat_response`, `generate_technical_questions` and
`evaluate_technical_response` return a value (a provider's output or a
fallback) and never raise an exception to the caller. -/
theorem C1_gateway_total_fail_soft (cfg : Config) (beh : Behaviors)
    (hist : List Message) (stage : Nat) (info : CandidateInfo)
    (ts : List String) (q a : String) :
    (∃ v, bridge_generate_chat_response cfg beh hist stage info = Except.ok v) ∧
    (∃ v, bridge_generate_technical_questions cfg beh ts = Except.ok v) ∧
    (∃ v, bridge_evaluate_technical_response cfg beh q a ts = Except.ok v) :=
  ⟨bridge_chat_total cfg beh hist stage info,
   bridge_questions_total cfg beh ts,
   bridge_eval_total cfg beh q a ts⟩

/-- C6: for every Gateway operation the primary provider is attempted
before the secondary.  For each of the three operations: a configured
primary's success is returned as-is; if the primary raises while the
secondary is configured and succeeds, the returned value equals the
secondary's output (no fallback); the fixed fallback literal is returned
when both configured providers raise — and in each case the result is an
`.ok` value, never an exception. -/
theorem C6_provider_order (cfg : Config) (beh : Behaviors)
    (hist : List Message) (stage : Nat) (info : CandidateInfo)
    (ts : List String) (q a : String) :
    (∀ v, cfg.has_openai = true →
      openai_generate_chat_response beh.oai hist stage info = Except.ok v →
      bridge_generate_chat_response cfg beh hist stage info = Except.ok v) ∧
    (∀ v e, cfg.has_openai = true → cfg.has_anthropic = true →
      openai_generate_chat_response beh.oai hist stage info = Except.error e →
      anthropic_generate_chat_response beh.ant hist stage info = Except.ok v →
      bridge_generate_chat_response cfg beh hist stage info = Except.ok v) ∧
    (∀ e e2, cfg.has_openai = true → cfg.has_anthropic = true →
      openai_generate_chat_response beh.oai hist stage info = Except.error e →
      anthropic_generate_chat_response beh.ant hist stage info = Except.error e2 →
      bridge_generate_chat_response cfg beh hist stage info =
        Except.ok (chatFallbackErr e2)) ∧
    (∀ v, cfg.has_openai = true →
      openai_generate_technical_questions beh.oai ts = Except.ok v →
      bridge_generate_technical_questions cfg beh ts = Except.ok v) ∧
    (∀ v e, cfg.has_openai = true → cfg.has_anthropic = true →
      openai_generate_technical_questions beh.oai ts = Except.error e →
      anthropic_generate_technical_questions beh.ant ts = Except.ok v →
      bridge_generate_technical_questions cfg beh ts = Except.ok v) ∧
    (∀ e e2, cfg.has_openai = true → cfg.has_anthropic = true →
      openai_generate_technical_questions beh.oai ts = Except.error e →
      anthropic_generate_technical_questions beh.ant ts = Except.error e2 →
      bridge_generate_technical_questions cfg beh ts =
        Except.ok (questionsFallbackErr e2)) ∧
    (∀ v, cfg.has_openai = true →
      openai_evaluate_technical_response beh.oai q a ts = Except.ok v →
      bridge_evaluate_technical_response cfg beh q a ts = Except.ok v) ∧
    (∀ v e, cfg.has_openai = true → cfg.has_anthropic = true →
      openai_evaluate_technical_response beh.oai q a ts = Except.error e →
      anthropic_evaluate_technical_response beh.ant q a ts = Except.ok v →
      bridge_evaluate_technical_response cfg beh q a ts = Except.ok v) ∧
    (∀ e e2, cfg.has_openai = true → cfg.has_anthropic = true →
      openai_evaluate_technical_response beh.oai q a ts = Except.error e →
      anthropic_evaluate_technical_response beh.ant q a ts = Except.error e2 →
      bridge_evaluate_technical_response cfg beh q a ts =
        Except.ok evalFallbackFailed) := by
  refine ⟨?_, ?_, ?_, ?_, ?_, ?_, ?_, ?_, ?_⟩
  · intro v h1 h2
    simp [bridge_generate_chat_response, h1, h2]
  · intro v e h1 h2 h3 h4
    simp [bridge_generate_chat_response, h1, h2, h3, h4]
  · intro e e2 h1 h2 h3 h4
    simp [bridge_generate_chat_response, h1, h2, h3, h4]
  · intro v h1 h2
    simp [bridge_generate_technical_questions, h1, h2]
  · intro v e h1 h2 h3 h4
    simp [bridge_generate_technical_questions, h1, h2, h3, h4]
  · intro e e2 h1 h2 h3 h4
    simp [bridge_generate_technical_questions, h1, h2, h3, h4]
  · intro v h1 h2
    simp [bridge_evaluate_technical_response, h1, h2]
  · intro v e h1 h2 h3 h4
    simp [bridge_evaluate_technical_response, h1, h2, h3, h4]
  · intro e e2 h1 h2 h3 h4
    simp [bridge_evaluate_technical_response, h1, h2, h3, h4]

/-- Witness for C6 at concrete configurations and behaviours: the
primary-success, secondary-rescue and both-fail cases of each operation,
each discharged by applying `C6_provider_order`. -/
theorem C6_provider_order_witness :
    bridge_generate_chat_response ⟨true, true⟩ behAllOk [] 1 [] =
      Except.ok "primary chat" ∧
    bridge_generate_chat_response ⟨true, true⟩ behOaiFail [] 1 [] =
      Except.ok "secondary chat" ∧
    bridge_generate_chat_response ⟨true, true⟩ behAllFail [] 1 [] =
      Except.ok (chatFallbackErr "bam") ∧
    bridge_generate_technical_questions ⟨true, true⟩ behOaiFail ["Python"] =
      Except.ok "secondary questions" ∧
    bridge_evaluate_technical_response ⟨true, true⟩ behOaiFail "q" "a" ["Python"] =
      Except.ok ⟨"sa", "sr", "sf"⟩ ∧
    bridge_evaluate_technical_response ⟨true, true⟩ behAllFail "q" "a" ["Python"] =
      Except.ok evalFallbackFailed :=
  ⟨(C6_provider_order ⟨true, true⟩ behAllOk [] 1 [] ["Python"] "q" "a").1
      "primary chat" rfl rfl,
   (C6_provider_order ⟨true, true⟩ behOaiFail [] 1 [] ["Python"] "q" "a").2.1
      "secondary chat" "boom" rfl rfl rfl rfl,
   (C6_provider_order ⟨true, true⟩ behAllFail [] 1 [] ["Python"] "q" "a").2.2.1
      "boom" "bam" rfl rfl rfl rfl,
   (C6_provider_order ⟨true, true⟩ behOaiFail [] 1 [] ["Python"] "q" "a").2.2.2.2.1
      "secondary questions" "boom" rfl rfl rfl rfl,
   (C6_provider_order ⟨true, true⟩ behOaiFail [] 1 [] ["Python"] "q" "a").2.2.2.2.2.2.2.1
      ⟨"sa", "sr", "sf"⟩ "boom" rfl rfl rfl rfl,
   (C6_provider_order ⟨true, true⟩ behAllFail [] 1 [] ["Python"] "q" "a").2.2.2.2.2.2.2.2
      "boom" "bam" rfl rfl rfl rfl⟩

/-- Counterexample to C5: the failure cases of
`evaluate_technical_response` do not all return the claimed single fixed
object.  With no provider configured the returned object's `response`
field reads "I'm currently unable to access our evaluation system",
and an in-helper JSON parse failure returns yet another object
("Unable to properly evaluate the response" / "Let's move on to the
next question."); both differ from the claimed
`evalFallbackFailed` object. -/
theorem C5_counterexample :
    bridge_evaluate_technical_response ⟨false, false⟩ behAllOk "q" "a" ["Python"] =
      Except.ok evalFallbackUnavailable ∧
    evalFallbackUnavailable ≠ evalFallbackFailed ∧
    bridge_evaluate_technical_response ⟨true, false⟩
        ⟨⟨fun _ _ _ => .ok "", fun _ => .ok "", fun _ _ _ => .ok "not json"⟩,
         ⟨fun _ _ _ => .ok "", fun _ => .ok "", fun _ _ _ => .ok "not json"⟩⟩
        "q" "a" ["Python"] =
      Except.ok openaiEvalParseFallback ∧
    openaiEvalParseFallback ≠ evalFallbackFailed := by
  refine ⟨rfl, by decide, rfl, by decide⟩

/-- C5 as amended: the evaluation operation never raises, but its
failure fallbacks are three distinct fixed objects: the claimed
`{assessment: "Unable to evaluate response", response: "... technical
difficulties with my evaluation system.", follow_up: "Can you tell me
more ..."}` object is returned exactly when a configured provider chain
ends in a raise; when no provider is configured the object carries the
response "Thank you for your answer. I'm currently unable to access our
evaluation system."; and when the answering provider returns unparseable
JSON the helper's own fixed object `{assessment: "Unable to properly
evaluate the response", ...}` is returned. -/
theorem C5_eval_fallbacks (cfg : Config) (beh : Behaviors)
    (q a : String) (ts : List String) :
    (∀ e, cfg.has_openai = true → cfg.has_anthropic = false →
      openai_evaluate_technical_response beh.oai q a ts = Except.error e →
      bridge_evaluate_technical_response cfg beh q a ts =
        Except.ok evalFallbackFailed) ∧
    (∀ e e2, cfg.has_openai = true → cfg.has_anthropic = true →
      openai_evaluate_technical_response beh.oai q a ts = Except.error e →
      anthropic_evaluate_technical_response beh.ant q a ts = Except.error e2 →
      bridge_evaluate_technical_response cfg beh q a ts =
        Except.ok evalFallbackFailed) ∧
    (∀ e, cfg.has_openai = false → cfg.has_anthropic = true →
      anthropic_evaluate_technical_response beh.ant q a ts = Except.error e →
      bridge_evaluate_technical_response cfg beh q a ts =
        Except.ok evalFallbackFailed) ∧
    (cfg.has_openai = false → cfg.has_anthropic = false →
      bridge_evaluate_technical_response cfg beh q a ts =
        Except.ok evalFallbackUnavailable) ∧
    (∀ text, cfg.has_openai = true →
      beh.oai.evalText q a ts = Except.ok text →
      parseEvalJson text.toList = none →
      bridge_evaluate_technical_response cfg beh q a ts =
        Except.ok openaiEvalParseFallback) ∧
    (∀ text, cfg.has_openai = false → cfg.has_anthropic = true →
      beh.ant.evalText q a ts = Except.ok text →
      parseEvalJson (anthropic_clean text) = none →
      bridge_evaluate_technical_response cfg beh q a ts =
        Except.ok anthropicEvalParseFallback) := by
  refine ⟨?_, ?_, ?_, ?_, ?_, ?_⟩
  · intro e h1 h2 h3
    simp [bridge_evaluate_technical_response, h1, h2, h3]
  · intro e e2 h1 h2 h3 h4
    simp [bridge_evaluate_technical_response, h1, h2, h3, h4]
  · intro e h1 h2 h3
    simp [bridge_evaluate_technical_response, h1, h2, h3]
  · intro h1 h2
    simp [bridge_evaluate_technical_response, h1, h2]
  · intro text h1 h2 h3
    simp only [String.toList] at h3
    simp [bridge_evaluate_technical_response, openai_evaluate_technical_response,
      h1, h2, h3]
  · intro text h1 h2 h3 h4
    simp [bridge_evaluate_technical_response, anthropic_evaluate_technical_response,
      h1, h2, h3, h4]

/-- Witness for C5 as amended, at concrete configurations and
behaviours. -/
theorem C5_eval_fallbacks_witness :
    bridge_evaluate_technical_response ⟨true, true⟩ behAllFail "q" "a" ["Go"] =
      Except.ok evalFallbackFailed ∧
    bridge_evaluate_technical_response ⟨false, false⟩ behAllOk "q" "a" ["Go"] =
      Except.ok evalFallbackUnavailable ∧
    bridge_evaluate_technical_response ⟨true, true⟩
        ⟨⟨fun _ _ _ => .ok "", fun _ => .ok "", fun _ _ _ => .ok "oops"⟩,
         ⟨fun _ _ _ => .ok "", fun _ => .ok "", fun _ _ _ => .ok "oops"⟩⟩
        "q" "a" ["Go"] =
      Except.ok openaiEvalParseFallback :=
  ⟨(C5_eval_fallbacks ⟨true, true⟩ behAllFail "q" "a" ["Go"]).2.1
      "boom" "bam" rfl rfl rfl rfl,
   (C5_eval_fallbacks ⟨false, false⟩ behAllOk "q" "a" ["Go"]).2.2.2.1 rfl rfl,
   (C5_eval_fallbacks ⟨true, true⟩
        ⟨⟨fun _ _ _ => .ok "", fun _ => .ok "", fun _ _ _ => .ok "oops"⟩,
         ⟨fun _ _ _ => .ok "", fun _ => .ok "", fun _ _ _ => .ok "oops"⟩⟩
        "q" "a" ["Go"]).2.2.2.2.1 "oops" rfl rfl rfl⟩

/-- The accumulating loop of `get_system_prompt` appends exactly the
concatenation of the rendered candidate-info lines. -/
lemma foldl_renderInfoLine (l : List (String × CValue)) (b : String) :
    List.foldl (fun acc kv => acc ++ renderInfoLine kv) b l =
      b ++ concatLines (l.map renderInfoLine) := by
  induction l generalizing b with
  | nil => simp [concatLines]
  | cons hd tl ih =>
    simp only [List.foldl_cons, List.map_cons, concatLines, ih,
      String.append_assoc]

/-- C9: for every stage value and candidate-info mapping,
`get_system_prompt` returns the fixed preamble, followed by one rendered
line per candidate-info entry (`tech_stack` comma-joined, every other
field as `key: value` via `renderInfoLine`), followed by the instruction
block keyed by the stage; the block exists exactly for stages 1-6, and
for any unmapped stage the suffix is empty so preamble and candidate
summary are still returned. -/
theorem C9_system_prompt_shape (stage : Nat) (info : CandidateInfo) :
    get_system_prompt stage info =
      basePromptPreamble ++ concatLines (info.map renderInfoLine) ++
        (stagePrompts stage).getD "" ∧
    ((stagePrompts stage).isSome ↔ (1 ≤ stage ∧ stage ≤ 6)) ∧
    (∀ l : List String,
      renderInfoLine ("tech_stack", CValue.list l) =
        "- tech_stack: " ++ pyJoin ", " l ++ "\n") ∧
    (∀ k v, k ≠ "tech_stack" →
      renderInfoLine (k, v) = "- " ++ k ++ ": " ++ cvalueStr v ++ "\n") := by
  refine ⟨?_, ?_, ?_, ?_⟩
  · simp only [get_system_prompt]
    rw [foldl_renderInfoLine]
    match h : stagePrompts stage with
    | some block => simp [h]
    | none => simp [h]
  · obtain _ | _ | _ | _ | _ | _ | _ | n := stage
    all_goals simp [stagePrompts]
  · intro l
    simp [renderInfoLine]
  · intro k v hk
    simp [renderInfoLine, hk]

/-- Witness for C9 at a concrete stage and candidate info, applying
`C9_system_prompt_shape` and discharging its inner hypothesis. -/
theorem C9_system_prompt_shape_witness :
    get_system_prompt 3 [("name", CValue.str "Jane"), ("experience", CValue.num 3)] =
      basePromptPreamble ++
        concatLines ([("name", CValue.str "Jane"),
          ("experience", CValue.num 3)].map renderInfoLine) ++
        (stagePrompts 3).getD "" ∧
    renderInfoLine ("name", CValue.str "Jane") = "- name: Jane\n" :=
  ⟨(C9_system_prompt_shape 3 _).1,
   by
    rw [(C9_system_prompt_shape 3
      [("name", CValue.str "Jane"), ("experience", CValue.num 3)]).2.2.2
      "name" (CValue.str "Jane") (by decide)]
    rfl⟩

/-- Writing a key makes it readable (`candidate_info[k] = v`). -/
lemma lookupInfo_setInfo_same (i : CandidateInfo) (k : String) (v : CValue) :
    lookupInfo (setInfo i k v) k = some v := by
  induction i with
  | nil => simp [setInfo, lookupInfo]
  | cons hd tl ih =>
    obtain ⟨k0, v0⟩ := hd
    by_cases hk : k0 = k
    · simp [setInfo, hk, lookupInfo]
    · simp [setInfo, hk, lookupInfo, ih]

/-- Storing the selected technologies makes `lookupTechStack` find them. -/
lemma lookupTechStack_set (i : CandidateInfo) (l : List String) :
    lookupTechStack (setInfo i "tech_stack" (CValue.list l)) = some l := by
  simp [lookupTechStack, lookupInfo_setInfo_same]

/-- One processed text input preserves the session invariant and never
lowers the stage; stage 6 is terminal. -/
lemma handle_inv {cfg : Config} {beh : Behaviors} {s : SessionState}
    {text : String} {s' : SessionState} {calls : List EvalCall}
    (hInv : SessionInv s)
    (h : handle_user_response cfg beh s text = some (s', calls)) :
    SessionInv s' ∧ s.interview_stage ≤ s'.interview_stage ∧
      (s.interview_stage = 6 → s'.interview_stage = 6) := by
  obtain ⟨hc1, hc2, hc3, hc4, hc5⟩ := hInv
  simp only [handle_user_response, update_chat_history] at h
  split at h
  next h1 =>
    -- stage 1: collect the name, move to stage 2
    split at h
    · simp at h
    next resp hresp =>
      simp only [Option.some.injEq, Prod.mk.injEq] at h
      obtain ⟨hs, -⟩ := h
      subst hs
      obtain ⟨htq0, hidx0⟩ := hc5 (by omega)
      simp [SessionInv, h1, htq0, hidx0]
  next h1 =>
    split at h
    next h5 =>
      -- stage 5: technical assessment
      split at h
      next htq =>
        -- first entry: generate the question list
        split at h
        · simp at h
        next ts hts =>
          split at h
          · simp at h
          next questions hq =>
            split at h
            next first tail heq =>
              simp only [Option.some.injEq, Prod.mk.injEq] at h
              obtain ⟨hs, -⟩ := h
              subst hs
              refine ⟨⟨by simp, ?_, ?_, by simp, by simp [h5]⟩, by simp [h5], by simp [h5]⟩
              · intro _
                simpa using hc2 h5
              · intro _ _
                constructor
                · show 0 < (List.filter (fun q => decide (pyStrip q ≠ "")) (pySplitNl questions)).length
                  rw [heq]
                  simp
                · show (0 : Nat) < 5
                  omega
            next heq =>
              simp only [Option.some.injEq, Prod.mk.injEq] at h
              obtain ⟨hs, -⟩ := h
              subst hs
              refine ⟨⟨by simp, ?_, ?_, by simp, by simp [h5]⟩, by simp [h5], by simp [h5]⟩
              · intro _
                simpa using hc2 h5
              · intro _ hne
                exact absurd heq hne
      next htq =>
        -- evaluate the answer to the current question
        split at h
        · simp at h
        next current_question hget =>
          have hlt : s.current_question_index < s.technical_questions.length := by
            by_contra hle
            rw [List.get?_eq_none.mpr (by omega)] at hget
            exact Option.noConfusion hget
          have hlt5 : s.current_question_index < 5 :=
            (hc3 h5 htq).2
          split at h
          · simp at h
          next ts hts =>
            split at h
            · simp at h
            next evaluation heval =>
              split at h
              next hdone =>
                -- the loop is exhausted: conclude
                split at h
                · simp at h
                next conclusion hconc =>
                  simp only [Option.some.injEq, Prod.mk.injEq] at h
                  obtain ⟨hs, -⟩ := h
                  subst hs
                  refine ⟨⟨?_, by simp, by simp, by simp, by simp⟩,
                    by simp [h5], by simp [h5]⟩
                  simp
                  omega
              next hdone =>
                simp only [Option.some.injEq, Prod.mk.injEq] at h
                obtain ⟨hs, -⟩ := h
                subst hs
                simp only [not_or, not_le] at hdone
                refine ⟨⟨?_, ?_, ?_, by simp, by simp [h5]⟩,
                  by simp [h5], by simp [h5]⟩
                · simp
                  omega
                · intro _
                  simpa using hc2 h5
                · intro _ _
                  simp
                  omega
    next h5 =>
      -- any other stage: generic chat turn, stage unchanged
      split at h
      · simp at h
      next resp hresp =>
        simp only [Option.some.injEq, Prod.mk.injEq] at h
        obtain ⟨hs, -⟩ := h
        subst hs
        exact ⟨⟨hc1, fun hx => hc2 hx, fun hx => hc3 hx, by simp, fun hx => hc5 hx⟩,
          le_refl _, fun hx => hx⟩

/-- One processed input event preserves the session invariant, never
lowers the stage, and keeps stage 6 terminal. -/
lemma app_step_inv {cfg : Config} {beh : Behaviors} {s : SessionState}
    {ev : UserEvent} {s' : SessionState} {calls : List EvalCall}
    (hInv : SessionInv s)
    (h : app_step cfg beh s ev = some (s', calls)) :
    SessionInv s' ∧ s.interview_stage ≤ s'.interview_stage ∧
      (s.interview_stage = 6 → s'.interview_stage = 6) := by
  obtain ⟨hc1, hc2, hc3, hc4, hc5⟩ := hInv
  cases ev with
  | start =>
    simp only [app_step, update_chat_history] at h
    split at h
    next hlen =>
      have hst0 : s.interview_stage = 0 := by
        by_contra hne
        exact hc4 hne (List.length_eq_zero.mp hlen)
      simp only [Option.some.injEq, Prod.mk.injEq] at h
      obtain ⟨hs, -⟩ := h
      subst hs
      obtain ⟨htq0, hidx0⟩ := hc5 (by omega)
      simp [SessionInv, hst0, htq0, hidx0]
    next hlen =>
      simp only [Option.some.injEq, Prod.mk.injEq] at h
      obtain ⟨hs, -⟩ := h
      subst hs
      exact ⟨⟨hc1, hc2, hc3, hc4, hc5⟩, le_refl _, fun hx => hx⟩
  | chat text =>
    simp only [app_step] at h
    split at h
    · exact handle_inv ⟨hc1, hc2, hc3, hc4, hc5⟩ h
    · simp only [Option.some.injEq, Prod.mk.injEq] at h
      obtain ⟨hs, -⟩ := h
      subst hs
      exact ⟨⟨hc1, hc2, hc3, hc4, hc5⟩, le_refl _, fun hx => hx⟩
  | contactForm email phone =>
    simp only [app_step, update_chat_history] at h
    split at h
    next h2 =>
      split at h
      · simp at h
      next resp hresp =>
        simp only [Option.some.injEq, Prod.mk.injEq] at h
        obtain ⟨hs, -⟩ := h
        subst hs
        obtain ⟨htq0, hidx0⟩ := hc5 (by omega)
        simp [SessionInv, h2, htq0, hidx0]
    next h2 =>
      simp only [Option.some.injEq, Prod.mk.injEq] at h
      obtain ⟨hs, -⟩ := h
      subst hs
      exact ⟨⟨hc1, hc2, hc3, hc4, hc5⟩, le_refl _, fun hx => hx⟩
  | expForm years position =>
    simp only [app_step, update_chat_history] at h
    split at h
    next h3 =>
      split at h
      · simp at h
      next resp hresp =>
        simp only [Option.some.injEq, Prod.mk.injEq] at h
        obtain ⟨hs, -⟩ := h
        subst hs
        obtain ⟨htq0, hidx0⟩ := hc5 (by omega)
        simp [SessionInv, h3, htq0, hidx0]
    next h3 =>
      simp only [Option.some.injEq, Prod.mk.injEq] at h
      obtain ⟨hs, -⟩ := h
      subst hs
      exact ⟨⟨hc1, hc2, hc3, hc4, hc5⟩, le_refl _, fun hx => hx⟩
  | techForm selected =>
    simp only [app_step, update_chat_history] at h
    split at h
    next h4 =>
      obtain ⟨h4s, h4ne⟩ := h4
      split at h
      · simp at h
      next resp hresp =>
        simp only [Option.some.injEq, Prod.mk.injEq] at h
        obtain ⟨hs, -⟩ := h
        subst hs
        obtain ⟨htq0, hidx0⟩ := hc5 (by omega)
        refine ⟨⟨by simp [hidx0], ?_, ?_, by simp, by simp⟩,
          by simp [h4s], by simp [h4s]⟩
        · intro _
          exact ⟨selected, by simpa using lookupTechStack_set s.candidate_info selected,
            h4ne⟩
        · intro _ hne
          simp [htq0] at hne
    next h4 =>
      simp only [Option.some.injEq, Prod.mk.injEq] at h
      obtain ⟨hs, -⟩ := h
      subst hs
      exact ⟨⟨hc1, hc2, hc3, hc4, hc5⟩, le_refl _, fun hx => hx⟩

/-- The invariant and stage monotonicity extend to event sequences. -/
lemma run_events_inv {cfg : Config} {beh : Behaviors} {s : SessionState}
    {evs : List UserEvent} {s' : SessionState} {calls : List EvalCall}
    (hInv : SessionInv s)
    (h : run_events cfg beh s evs = some (s', calls)) :
    SessionInv s' ∧ s.interview_stage ≤ s'.interview_stage ∧
      (s.interview_stage = 6 → s'.interview_stage = 6) := by
  induction evs generalizing s calls with
  | nil =>
    simp only [run_events, Option.some.injEq, Prod.mk.injEq] at h
    obtain ⟨hs, -⟩ := h
    subst hs
    exact ⟨hInv, le_refl _, fun hx => hx⟩
  | cons ev rest ih =>
    simp only [run_events] at h
    split at h
    · simp at h
    next s1 calls1 hstep =>
      split at h
      · simp at h
      next s2 calls2 hrest =>
        simp only [Option.some.injEq, Prod.mk.injEq] at h
        obtain ⟨hs, -⟩ := h
        subst hs
        obtain ⟨hInv1, hmono1, hterm1⟩ := app_step_inv hInv hstep
        obtain ⟨hInv2, hmono2, hterm2⟩ := ih hInv1 hrest
        exact ⟨hInv2, le_trans hmono1 hmono2, fun hx => hterm2 (hterm1 hx)⟩

/-- The fresh session satisfies the invariant. -/
lemma initialize_inv : SessionInv initialize_session_state := by
  simp [SessionInv, initialize_session_state]

/-- C3: in every session state reachable from the initial session (empty
history, stage 0, cursor 0) by any sequence of processed inputs, the
cursor satisfies `current_question_index <= min(len(technical_questions), 5)`. -/
theorem C3_cursor_invariant (cfg : Config) (beh : Behaviors)
    (evs : List UserEvent) (s' : SessionState) (calls : List EvalCall)
    (h : run_events cfg beh initialize_session_state evs = some (s', calls)) :
    s'.current_question_index ≤ min s'.technical_questions.length 5 :=
  ((run_events_inv initialize_inv h).1).1

/-- Witness for C3 at the empty input sequence. -/
theorem C3_cursor_invariant_witness :
    initialize_session_state.current_question_index ≤
      min initialize_session_state.technical_questions.length 5 :=
  C3_cursor_invariant ⟨false, false⟩ behAllOk [] initialize_session_state [] rfl

/-- C7: across any two reachable points of one session, the interview
stage is monotonically non-decreasing, and once the stage equals
CONCLUSION (6) it never changes again. -/
theorem C7_stage_monotone (cfg : Config) (beh : Behaviors)
    (evs1 evs2 : List UserEvent) (s s' : SessionState)
    (calls calls' : List EvalCall)
    (h1 : run_events cfg beh initialize_session_state evs1 = some (s, calls))
    (h2 : run_events cfg beh s evs2 = some (s', calls')) :
    s.interview_stage ≤ s'.interview_stage ∧
      (s.interview_stage = 6 → s'.interview_stage = 6) := by
  have hInv := (run_events_inv initialize_inv h1).1
  obtain ⟨-, hmono, hterm⟩ := run_events_inv hInv h2
  exact ⟨hmono, hterm⟩

/-- Witness for C7: the automatic welcome input, processed from the
fresh session. -/
theorem C7_stage_monotone_witness :
    ∃ s' calls', run_events ⟨false, false⟩ behAllOk initialize_session_state
        [UserEvent.start] = some (s', calls') ∧
      initialize_session_state.interview_stage ≤ s'.interview_stage ∧
      (initialize_session_state.interview_stage = 6 → s'.interview_stage = 6) := by
  refine ⟨_, _, rfl, ?_⟩
  exact C7_stage_monotone ⟨false, false⟩ behAllOk [] [UserEvent.start]
    initialize_session_state _ [] _ rfl rfl

/-- C8: at stage TECH_STACK (4), submitting the technology form with an
empty selection leaves the whole session state unchanged (so the stage
stays 4 and `tech_stack` stays unset); and in every reachable state the
stage equals TECHNICAL_ASSESSMENT (5) only while `tech_stack` is a
recorded non-empty list. -/
theorem C8_tech_stack_guard (cfg : Config) (beh : Behaviors)
    (s : SessionState) (evs : List UserEvent) (s' : SessionState)
    (calls : List EvalCall) :
    (s.interview_stage = 4 →
      app_step cfg beh s (UserEvent.techForm []) = some (s, [])) ∧
    (run_events cfg beh initialize_session_state evs = some (s', calls) →
      s'.interview_stage = 5 →
      ∃ ts, lookupTechStack s'.candidate_info = some ts ∧ ts ≠ []) := by
  constructor
  · intro _
    simp [app_step]
  · intro hrun h5
    exact ((run_events_inv initialize_inv hrun).1).2.1 h5

/-- Witness for C8: the empty tech selection is rejected at a concrete
stage-4 state, and a concrete full run into stage 5 carries a non-empty
tech stack. -/
theorem C8_tech_stack_guard_witness :
    app_step ⟨false, false⟩ behAllOk
        (⟨[⟨Role.user, "hi"⟩], 4, [], [], 0, false⟩ : SessionState)
        (UserEvent.techForm []) =
      some (⟨[⟨Role.user, "hi"⟩], 4, [], [], 0, false⟩, []) ∧
    ∃ s' calls, run_events ⟨false, false⟩ behAllOk initialize_session_state
        [UserEvent.start, UserEvent.chat "Jane",
         UserEvent.contactForm "a@b.com" "555-0100",
         UserEvent.expForm 3 "Backend Engineer",
         UserEvent.techForm ["Python", "Go"]] = some (s', calls) ∧
      ∃ ts, lookupTechStack s'.candidate_info = some ts ∧ ts ≠ [] := by
  constructor
  · exact (C8_tech_stack_guard ⟨false, false⟩ behAllOk
      ⟨[⟨Role.user, "hi"⟩], 4, [], [], 0, false⟩ [] initialize_session_state []).1 rfl
  · refine ⟨_, _, rfl, ?_⟩
    exact (C8_tech_stack_guard ⟨false, false⟩ behAllOk initialize_session_state
      [UserEvent.start, UserEvent.chat "Jane",
       UserEvent.contactForm "a@b.com" "555-0100",
       UserEvent.expForm 3 "Backend Engineer",
       UserEvent.techForm ["Python", "Go"]] _ _).2 rfl rfl

/-- The gateway chat operation never returns an error. -/
lemma bridge_chat_ne_error (cfg : Config) (beh : Behaviors)
    (hist : List Message) (stage : Nat) (info : CandidateInfo) (e : String) :
    bridge_generate_chat_response cfg beh hist stage info ≠ Except.error e := by
  obtain ⟨v, hv⟩ := bridge_chat_total cfg beh hist stage info
  rw [hv]
  exact fun hx => Except.noConfusion hx

/-- The gateway questions operation never returns an error. -/
lemma bridge_questions_ne_error (cfg : Config) (beh : Behaviors)
    (ts : List String) (e : String) :
    bridge_generate_technical_questions cfg beh ts ≠ Except.error e := by
  obtain ⟨v, hv⟩ := bridge_questions_total cfg beh ts
  rw [hv]
  exact fun hx => Except.noConfusion hx

/-- The gateway evaluation operation never returns an error. -/
lemma bridge_eval_ne_error (cfg : Config) (beh : Behaviors)
    (q a : String) (ts : List String) (e : String) :
    bridge_evaluate_technical_response cfg beh q a ts ≠ Except.error e := by
  obtain ⟨v, hv⟩ := bridge_eval_total cfg beh q a ts
  rw [hv]
  exact fun hx => Except.noConfusion hx

/-- One answer processed inside the assessment loop, not yet exhausting
it: the question at the cursor is evaluated (exactly one evaluation
call, against that question), the cursor advances by one, the stage
stays 5. -/
lemma handle_eval_step_continue {cfg : Config} {beh : Behaviors}
    {s : SessionState} {a : String} {ts : List String} {qv : String}
    {ev : EvalResult}
    (h5 : s.interview_stage = 5)
    (hts : lookupTechStack s.candidate_info = some ts)
    (hqv : s.technical_questions.get? s.current_question_index = some qv)
    (hev : bridge_evaluate_technical_response cfg beh qv a ts = Except.ok ev)
    (hdone : ¬(s.current_question_index + 1 ≥ s.technical_questions.length ∨
        s.current_question_index + 1 ≥ 5)) :
    handle_user_response cfg beh s a =
      some ({ chat_history := s.chat_history ++ [⟨Role.user, a⟩] ++
                [⟨Role.assistant, ev.response ++ " " ++ ev.follow_up⟩],
              interview_stage := 5,
              candidate_info := s.candidate_info,
              technical_questions := s.technical_questions,
              current_question_index := s.current_question_index + 1,
              evaluation_in_progress := s.evaluation_in_progress },
            [⟨qv, a, ts⟩]) := by
  have h1 : ¬ s.interview_stage = 1 := by omega
  have htqne : ¬ s.technical_questions = [] := by
    intro hx
    rw [hx] at hqv
    simp [List.get?] at hqv
  have hqv2 : s.technical_questions[s.current_question_index]? = some qv := by
    rw [← List.get?_eq_getElem?]
    exact hqv
  have hd1 : ¬ s.technical_questions.length ≤ s.current_question_index + 1 := by omega
  have hd2 : ¬ 4 ≤ s.current_question_index := by omega
  simp [handle_user_response, update_chat_history, h5, h1, htqne, hqv2, hts, hev,
    hd1, hd2]

/-- One answer processed inside the assessment loop, exhausting it: the
question at the cursor is evaluated, the cursor advances by one, the
stage moves to 6 and the concluding message is appended. -/
lemma handle_eval_step_done {cfg : Config} {beh : Behaviors}
    {s : SessionState} {a : String} {ts : List String} {qv : String}
    {ev : EvalResult} {conc : String}
    (h5 : s.interview_stage = 5)
    (hts : lookupTechStack s.candidate_info = some ts)
    (hqv : s.technical_questions.get? s.current_question_index = some qv)
    (hev : bridge_evaluate_technical_response cfg beh qv a ts = Except.ok ev)
    (hdone : s.current_question_index + 1 ≥ s.technical_questions.length ∨
        s.current_question_index + 1 ≥ 5)
    (hconc : bridge_generate_chat_response cfg beh
        (s.chat_history ++
          [⟨Role.user, a⟩, ⟨Role.assistant, ev.response ++ " " ++ ev.follow_up⟩])
        6 s.candidate_info = Except.ok conc) :
    handle_user_response cfg beh s a =
      some ({ chat_history := s.chat_history ++
                [⟨Role.user, a⟩,
                 ⟨Role.assistant, ev.response ++ " " ++ ev.follow_up⟩,
                 ⟨Role.assistant, conc⟩],
              interview_stage := 6,
              candidate_info := s.candidate_info,
              technical_questions := s.technical_questions,
              current_question_index := s.current_question_index + 1,
              evaluation_in_progress := s.evaluation_in_progress },
            [⟨qv, a, ts⟩]) := by
  have h1 : ¬ s.interview_stage = 1 := by omega
  have htqne : ¬ s.technical_questions = [] := by
    intro hx
    rw [hx] at hqv
    simp [List.get?] at hqv
  have hqv2 : s.technical_questions[s.current_question_index]? = some qv := by
    rw [← List.get?_eq_getElem?]
    exact hqv
  have hd : s.technical_questions.length ≤ s.current_question_index + 1 ∨
      4 ≤ s.current_question_index := by omega
  simp [handle_user_response, update_chat_history, h5, h1, htqne, hqv2, hts, hev,
    hd, hconc]

/-- A text input at a stage other than 1 and 5 is a generic chat turn:
only the chat history grows. -/
lemma handle_generic {cfg : Config} {beh : Behaviors} {s : SessionState}
    (text : String) (h1 : s.interview_stage ≠ 1) (h5 : s.interview_stage ≠ 5) :
    ∃ s2, handle_user_response cfg beh s text = some (s2, []) ∧
      s2.interview_stage = s.interview_stage ∧
      s2.current_question_index = s.current_question_index ∧
      s2.technical_questions = s.technical_questions ∧
      s2.candidate_info = s.candidate_info := by
  rcases hresp : bridge_generate_chat_response cfg beh
      (s.chat_history ++ [⟨Role.user, text⟩]) s.interview_stage s.candidate_info with
    e | resp
  · exact absurd hresp (bridge_chat_ne_error _ _ _ _ _ _)
  · refine ⟨{ chat_history :=
                s.chat_history ++ [⟨Role.user, text⟩, ⟨Role.assistant, resp⟩],
              interview_stage := s.interview_stage,
              candidate_info := s.candidate_info,
              technical_questions := s.technical_questions,
              current_question_index := s.current_question_index,
              evaluation_in_progress := s.evaluation_in_progress },
      ?_, rfl, rfl, rfl, rfl⟩
    simp [handle_user_response, update_chat_history, h1, h5, hresp]

/-- A chat event at a stage other than 1-5 leaves everything but the
history unchanged and issues no evaluation call. -/
lemma app_step_chat_other {cfg : Config} {beh : Behaviors} {s : SessionState}
    (text : String) (h1 : s.interview_stage ≠ 1) (h2 : s.interview_stage ≠ 2)
    (h3 : s.interview_stage ≠ 3) (h4 : s.interview_stage ≠ 4)
    (h5 : s.interview_stage ≠ 5) :
    ∃ s2, app_step cfg beh s (UserEvent.chat text) = some (s2, []) ∧
      s2.interview_stage = s.interview_stage ∧
      s2.current_question_index = s.current_question_index ∧
      s2.technical_questions = s.technical_questions ∧
      s2.candidate_info = s.candidate_info := by
  by_cases ht : text = ""
  · refine ⟨s, ?_, rfl, rfl, rfl, rfl⟩
    simp [app_step, ht]
  · obtain ⟨s2, hh, hrest⟩ := @handle_generic cfg beh s text h1 h5
    refine ⟨s2, ?_, hrest⟩
    simp [app_step, h2, h3, h4, ht, hh]

/-- After the loop has concluded (stage 6), any further sequence of chat
inputs issues no evaluation call and changes nothing but the history. -/
lemma run_chats_stage6 {cfg : Config} {beh : Behaviors}
    (answers : List String) :
    ∀ s : SessionState, s.interview_stage = 6 →
    ∃ s', run_events cfg beh s (answers.map UserEvent.chat) = some (s', []) ∧
      s'.interview_stage = 6 ∧
      s'.current_question_index = s.current_question_index ∧
      s'.technical_questions = s.technical_questions ∧
      s'.candidate_info = s.candidate_info := by
  induction answers with
  | nil =>
    intro s h6
    exact ⟨s, rfl, h6, rfl, rfl, rfl⟩
  | cons a rest ih =>
    intro s h6
    obtain ⟨s2, hstep, hst, hidx, htq, hinfo⟩ :=
      @app_step_chat_other cfg beh s a
        (by omega) (by omega) (by omega) (by omega) (by omega)
    obtain ⟨s', hrun, hst', hidx', htq', hinfo'⟩ := ih s2 (by rw [hst]; exact h6)
    refine ⟨s', ?_, hst', by rw [hidx', hidx], by rw [htq', htq], by rw [hinfo', hinfo]⟩
    simp only [List.map_cons, run_events, hstep, hrun, List.nil_append]

/-- Bundled form of `handle_eval_step_continue`. -/
lemma eval_step_continue {cfg : Config} {beh : Behaviors}
    {s : SessionState} {a : String} {ts : List String} {qv : String}
    (h5 : s.interview_stage = 5)
    (hts : lookupTechStack s.candidate_info = some ts)
    (hqv : s.technical_questions.get? s.current_question_index = some qv)
    (hdone : ¬(s.current_question_index + 1 ≥ s.technical_questions.length ∨
        s.current_question_index + 1 ≥ 5)) :
    ∃ s2, handle_user_response cfg beh s a = some (s2, [⟨qv, a, ts⟩]) ∧
      s2.interview_stage = 5 ∧
      s2.technical_questions = s.technical_questions ∧
      s2.candidate_info = s.candidate_info ∧
      s2.current_question_index = s.current_question_index + 1 := by
  rcases hev : bridge_evaluate_technical_response cfg beh qv a ts with e | ev
  · exact absurd hev (bridge_eval_ne_error _ _ _ _ _ _)
  · exact ⟨_, handle_eval_step_continue h5 hts hqv hev hdone, rfl, rfl, rfl, rfl⟩

/-- Bundled form of `handle_eval_step_done`. -/
lemma eval_step_done {cfg : Config} {beh : Behaviors}
    {s : SessionState} {a : String} {ts : List String} {qv : String}
    (h5 : s.interview_stage = 5)
    (hts : lookupTechStack s.candidate_info = some ts)
    (hqv : s.technical_questions.get? s.current_question_index = some qv)
    (hdone : s.current_question_index + 1 ≥ s.technical_questions.length ∨
        s.current_question_index + 1 ≥ 5) :
    ∃ s2, handle_user_response cfg beh s a = some (s2, [⟨qv, a, ts⟩]) ∧
      s2.interview_stage = 6 ∧
      s2.technical_questions = s.technical_questions ∧
      s2.candidate_info = s.candidate_info ∧
      s2.current_question_index = s.current_question_index + 1 := by
  rcases hev : bridge_evaluate_technical_response cfg beh qv a ts with e | ev
  · exact absurd hev (bridge_eval_ne_error _ _ _ _ _ _)
  rcases hconc : bridge_generate_chat_response cfg beh
      (s.chat_history ++
        [⟨Role.user, a⟩, ⟨Role.assistant, ev.response ++ " " ++ ev.follow_up⟩])
      6 s.candidate_info with e | conc
  · exact absurd hconc (bridge_chat_ne_error _ _ _ _ _ _)
  · exact ⟨_, handle_eval_step_done h5 hts hqv hev hdone hconc, rfl, rfl, rfl, rfl⟩

/-- `List.get?` agrees with `List.getD` inside the bounds. -/
lemma list_get?_getD {α : Type} (l : List α) (n : Nat) (d : α) (h : n < l.length) :
    l.get? n = some (l.getD n d) := by
  rw [List.getD_eq_getElem?_getD, ← List.get?_eq_getElem?, List.get?_eq_get h]
  rfl

/-- The technical-assessment loop: from a stage-5 state with question
list `qs` and cursor strictly inside `min(len qs, 5)`, a sequence of
non-empty answers is evaluated against consecutive question indices,
one evaluation per answer, the cursor advances accordingly, and the
stage becomes 6 exactly when the cursor reaches `min(len qs, 5)`;
answers arriving after that produce no further evaluation. -/
lemma assessment_loop {cfg : Config} {beh : Behaviors} {qs ts : List String} :
    ∀ answers : List String, (∀ x ∈ answers, x ≠ "") →
    ∀ s : SessionState,
      s.interview_stage = 5 →
      s.technical_questions = qs →
      lookupTechStack s.candidate_info = some ts →
      s.current_question_index < min qs.length 5 →
    ∃ s', run_events cfg beh s (answers.map UserEvent.chat) = some (s',
        (List.range (min answers.length
            (min qs.length 5 - s.current_question_index))).map
          (fun j => ⟨qs.getD (s.current_question_index + j) "",
            answers.getD j "", ts⟩)) ∧
      s'.technical_questions = qs ∧
      s'.candidate_info = s.candidate_info ∧
      s'.current_question_index =
        min (s.current_question_index + answers.length) (min qs.length 5) ∧
      s'.interview_stage =
        (if s.current_question_index + answers.length < min qs.length 5
          then 5 else 6) := by
  intro answers
  induction answers with
  | nil =>
    intro _ s h5 htq hts hk
    refine ⟨s, ?_, htq, rfl, ?_, ?_⟩
    · have hz : min 0 (min qs.length 5 - s.current_question_index) = 0 := by omega
      simp [run_events, hz]
    · simp only [List.length_nil, Nat.add_zero]
      omega
    · simp only [List.length_nil, Nat.add_zero]
      rw [if_pos hk]
      exact h5
  | cons a rest ih =>
    intro hans s h5 htq hts hk
    have ha : a ≠ "" := hans a (List.mem_cons_self a rest)
    have hrest : ∀ x ∈ rest, x ≠ "" := fun x hx => hans x (List.mem_cons_of_mem a hx)
    have hklen : s.current_question_index < qs.length := by omega
    have hkq : s.technical_questions.get? s.current_question_index =
        some (qs.getD s.current_question_index "") := by
      rw [htq]
      exact list_get?_getD qs s.current_question_index "" hklen
    by_cases hdone : s.current_question_index + 1 ≥ s.technical_questions.length ∨
        s.current_question_index + 1 ≥ 5
    · -- this answer exhausts the loop: stage 6, then only generic turns
      have hm : min qs.length 5 = s.current_question_index + 1 := by
        rw [htq] at hdone
        omega
      obtain ⟨s2, hstep, hs2stage, hs2tq, hs2info, hs2idx⟩ :=
        @eval_step_done cfg beh s a ts _ h5 hts hkq hdone
      have happ : app_step cfg beh s (UserEvent.chat a) =
          some (s2, [⟨qs.getD s.current_question_index "", a, ts⟩]) := by
        simp only [app_step]
        rw [if_pos ⟨by omega, by omega, by omega, ha⟩]
        exact hstep
      obtain ⟨s', hrun, hst', hidx', htq', hinfo'⟩ :=
        @run_chats_stage6 cfg beh rest s2 hs2stage
      refine ⟨s', ?_, ?_, ?_, ?_, ?_⟩
      · simp only [List.map_cons, run_events, happ, hrun, List.append_nil]
        have hone : min (a :: rest).length
            (min qs.length 5 - s.current_question_index) = 1 := by
          simp only [List.length_cons]
          omega
        rw [hone, show (1 : Nat) = 0 + 1 from rfl, List.range_succ]
        simp
      · rw [htq', hs2tq, htq]
      · rw [hinfo', hs2info]
      · rw [hidx', hs2idx]
        simp only [List.length_cons]
        omega
      · rw [hst']
        rw [if_neg (by simp only [List.length_cons]; omega)]
    · -- the loop continues: recurse on the remaining answers
      obtain ⟨s2, hstep, hs2stage, hs2tq, hs2info, hs2idx⟩ :=
        @eval_step_continue cfg beh s a ts _ h5 hts hkq hdone
      have happ : app_step cfg beh s (UserEvent.chat a) =
          some (s2, [⟨qs.getD s.current_question_index "", a, ts⟩]) := by
        simp only [app_step]
        rw [if_pos ⟨by omega, by omega, by omega, ha⟩]
        exact hstep
      rw [htq] at hdone
      obtain ⟨s', hrun, htq', hinfo', hidx', hstage'⟩ :=
        ih hrest s2 hs2stage (by rw [hs2tq]; exact htq)
          (by rw [hs2info]; exact hts) (by rw [hs2idx]; omega)
      rw [hs2idx] at hrun hidx' hstage'
      refine ⟨s', ?_, htq', by rw [hinfo', hs2info], ?_, ?_⟩
      · simp only [List.map_cons, run_events, happ, hrun, List.cons_append,
          List.nil_append]
        have hcalls : (⟨qs.getD s.current_question_index "", a, ts⟩ : EvalCall) ::
            (List.range (min rest.length
              (min qs.length 5 - (s.current_question_index + 1)))).map
              (fun j => ⟨qs.getD (s.current_question_index + 1 + j) "",
                rest.getD j "", ts⟩) =
            (List.range (min (a :: rest).length
              (min qs.length 5 - s.current_question_index))).map
              (fun j => ⟨qs.getD (s.current_question_index + j) "",
                (a :: rest).getD j "", ts⟩) := by
          have h1 : min (a :: rest).length
              (min qs.length 5 - s.current_question_index) =
              min rest.length
                (min qs.length 5 - (s.current_question_index + 1)) + 1 := by
            simp only [List.length_cons]
            omega
          rw [h1, List.range_succ_eq_map, List.map_cons, List.map_map]
          refine congrArg₂ _ ?_ ?_
          · simp
          · refine List.map_congr_left ?_
            intro x _
            simp only [Function.comp_apply, List.getD_cons_succ]
            have hx : s.current_question_index + (x + 1) =
                s.current_question_index + 1 + x := by omega
            rw [hx]
        rw [← hcalls]
      · rw [hidx']
        simp only [List.length_cons]
        omega
      · rw [hstage']
        by_cases hc : s.current_question_index + 1 + rest.length < min qs.length 5
        · rw [if_pos hc, if_pos (by simp only [List.length_cons]; omega)]
        · rw [if_neg hc, if_neg (by simp only [List.length_cons]; omega)]

/-- C2: from a stage-5 state holding a non-empty generated question list
`qs` (length L) and a recorded tech stack, any sequence of non-empty
answer inputs is evaluated against questions at consecutive indices
0, 1, ..., min(L,5) - 1 — each exactly once, no duplicate, no skip, and
no indexing past the end (the run never raises) — and the session
transitions to CONCLUSION exactly once, immediately after the
min(L,5)-th evaluation: after k answers the stage is 5 for
k < min(L,5) and 6 from then on. -/
theorem C2_assessment_loop (cfg : Config) (beh : Behaviors)
    (qs ts answers : List String) (hist : List Message) (info : CandidateInfo)
    (b : Bool) (hqs : qs ≠ []) (hans : ∀ x ∈ answers, x ≠ "")
    (hts : lookupTechStack info = some ts) :
    (∃ s', run_events cfg beh ⟨hist, 5, info, qs, 0, b⟩
        (answers.map UserEvent.chat) =
        some (s', (List.range (min answers.length (min qs.length 5))).map
          (fun j => ⟨qs.getD j "", answers.getD j "", ts⟩)) ∧
      s'.technical_questions = qs ∧
      s'.current_question_index = min answers.length (min qs.length 5) ∧
      s'.interview_stage = (if answers.length < min qs.length 5 then 5 else 6)) ∧
    (∀ k, k ≤ answers.length → ∃ sk callsk,
      run_events cfg beh ⟨hist, 5, info, qs, 0, b⟩
        ((answers.take k).map UserEvent.chat) = some (sk, callsk) ∧
      sk.interview_stage = (if k < min qs.length 5 then 5 else 6) ∧
      sk.current_question_index = min k (min qs.length 5)) := by
  have hpos : 0 < min qs.length 5 := by
    have := List.length_pos.mpr hqs
    omega
  constructor
  · obtain ⟨s', hrun, htq', hinfo', hidx', hstage'⟩ :=
      @assessment_loop cfg beh qs ts
        answers hans ⟨hist, 5, info, qs, 0, b⟩ rfl rfl hts hpos
    simp only [Nat.sub_zero, Nat.zero_add] at hrun hidx' hstage'
    exact ⟨s', hrun, htq', hidx', hstage'⟩
  · intro k hk
    have htake : ∀ x ∈ answers.take k, x ≠ "" :=
      fun x hx => hans x (List.mem_of_mem_take hx)
    obtain ⟨sk, hrun, htq', hinfo', hidx', hstage'⟩ :=
      @assessment_loop cfg beh qs ts
        (answers.take k) htake ⟨hist, 5, info, qs, 0, b⟩ rfl rfl hts hpos
    have hlen : (answers.take k).length = k := by
      rw [List.length_take]
      omega
    rw [hlen] at hidx' hstage'
    simp only [Nat.zero_add] at hidx' hstage'
    exact ⟨sk, _, hrun, hstage', hidx'⟩

/-- Witness for C2: a concrete two-question list with three non-empty
answers — both questions are evaluated in order and the third answer
falls after the transition to CONCLUSION. -/
theorem C2_assessment_loop_witness :
    ∃ s', run_events ⟨false, false⟩ behAllOk
        (⟨[], 5, [("tech_stack", CValue.list ["Python"])], ["q1", "q2"], 0, false⟩ :
          SessionState)
        ([UserEvent.chat "a1", UserEvent.chat "a2", UserEvent.chat "a3"]) =
        some (s', [⟨"q1", "a1", ["Python"]⟩, ⟨"q2", "a2", ["Python"]⟩]) ∧
      s'.technical_questions = ["q1", "q2"] ∧
      s'.current_question_index = 2 ∧
      s'.interview_stage = 6 := by
  obtain ⟨⟨s', hrun, htq, hidx, hstage⟩, -⟩ :=
    C2_assessment_loop ⟨false, false⟩ behAllOk ["q1", "q2"] ["Python"]
      ["a1", "a2", "a3"] [] [("tech_stack", CValue.list ["Python"])] false
      (by decide) (by decide) rfl
  refine ⟨s', ?_, htq, by simpa using hidx, by simpa using hstage⟩
  simpa using hrun

set_option maxRecDepth 8000 in
/-- The questions fallback emitted when no provider is configured splits
and filters into the one-element list holding the apology itself. -/
lemma fallback_splits_to_singleton :
    List.filter (fun q => !decide (pyStrip q = ""))
      (pySplitNl questionsFallbackUnavailable) =
      [questionsFallbackUnavailable] := by decide

/-- With no provider configured, the questions operation returns the
fixed apology. -/
lemma bridge_questions_unconfigured (beh : Behaviors) (ts : List String) :
    bridge_generate_technical_questions ⟨false, false⟩ beh ts =
      Except.ok questionsFallbackUnavailable := rfl

/-- With no provider configured, the evaluation operation returns its
fixed fallback object. -/
lemma bridge_eval_unconfigured (beh : Behaviors) (q a : String) (ts : List String) :
    bridge_evaluate_technical_response ⟨false, false⟩ beh q a ts =
      Except.ok evalFallbackUnavailable := rfl

/-- With no provider configured, the chat operation returns its fixed
apology. -/
lemma bridge_chat_unconfigured (beh : Behaviors) (hist : List Message)
    (stage : Nat) (info : CandidateInfo) :
    bridge_generate_chat_response ⟨false, false⟩ beh hist stage info =
      Except.ok chatFallbackUnavailable := rfl

/-- C10: when technical-question generation returns the gateway's
fallback apology (here: no provider configured), the controller's
split-and-filter step produces the one-element question list holding the
apology itself, which is surfaced as the first question; the candidate's
single next answer is evaluated against the apology text as the
question, and the session transitions to CONCLUSION after exactly that
one evaluated answer — the empty-list degraded mode is not reached. -/
theorem C10_fallback_is_the_question (beh : Behaviors) (hist : List Message)
    (info : CandidateInfo) (b : Bool) (ts : List String) (a1 a2 : String)
    (hts : lookupTechStack info = some ts) (ha1 : a1 ≠ "") (ha2 : a2 ≠ "") :
    (∃ s1, app_step ⟨false, false⟩ beh
        (⟨hist, 5, info, [], 0, b⟩ : SessionState) (UserEvent.chat a1) =
        some (s1, []) ∧
      s1.technical_questions = [questionsFallbackUnavailable] ∧
      s1.interview_stage = 5 ∧
      s1.current_question_index = 0 ∧
      s1.chat_history = hist ++
        [⟨Role.user, a1⟩, ⟨Role.assistant, questionsFallbackUnavailable⟩]) ∧
    (∃ s2, run_events ⟨false, false⟩ beh
        (⟨hist, 5, info, [], 0, b⟩ : SessionState)
        [UserEvent.chat a1, UserEvent.chat a2] =
        some (s2, [⟨questionsFallbackUnavailable, a2, ts⟩]) ∧
      s2.interview_stage = 6 ∧
      s2.current_question_index = 1 ∧
      s2.technical_questions = [questionsFallbackUnavailable]) := by
  have hstep1 : app_step ⟨false, false⟩ beh
      (⟨hist, 5, info, [], 0, b⟩ : SessionState) (UserEvent.chat a1) =
      some ({ chat_history := hist ++
                [⟨Role.user, a1⟩, ⟨Role.assistant, questionsFallbackUnavailable⟩],
              interview_stage := 5,
              candidate_info := info,
              technical_questions := [questionsFallbackUnavailable],
              current_question_index := 0,
              evaluation_in_progress := b }, []) := by
    simp [app_step, handle_user_response, update_chat_history, ha1, hts,
      bridge_questions_unconfigured, fallback_splits_to_singleton]
  have hstep2 : app_step ⟨false, false⟩ beh
      ({ chat_history := hist ++
            [⟨Role.user, a1⟩, ⟨Role.assistant, questionsFallbackUnavailable⟩],
          interview_stage := 5,
          candidate_info := info,
          technical_questions := [questionsFallbackUnavailable],
          current_question_index := 0,
          evaluation_in_progress := b } : SessionState) (UserEvent.chat a2) =
      some ({ chat_history := (hist ++
                [⟨Role.user, a1⟩, ⟨Role.assistant, questionsFallbackUnavailable⟩]) ++
                [⟨Role.user, a2⟩,
                 ⟨Role.assistant, evalFallbackUnavailable.response ++ " " ++
                   evalFallbackUnavailable.follow_up⟩,
                 ⟨Role.assistant, chatFallbackUnavailable⟩],
              interview_stage := 6,
              candidate_info := info,
              technical_questions := [questionsFallbackUnavailable],
              current_question_index := 1,
              evaluation_in_progress := b }, [⟨questionsFallbackUnavailable, a2, ts⟩]) := by
    simp [app_step, handle_user_response, update_chat_history, ha2, hts,
      bridge_eval_unconfigured, bridge_chat_unconfigured]
  constructor
  · refine ⟨_, hstep1, ?_, ?_, ?_, ?_⟩ <;> rfl
  · refine ⟨{ chat_history :=
                (hist ++
                  [⟨Role.user, a1⟩,
                   ⟨Role.assistant, questionsFallbackUnavailable⟩]) ++
                  [⟨Role.user, a2⟩,
                   ⟨Role.assistant, evalFallbackUnavailable.response ++ " " ++
                     evalFallbackUnavailable.follow_up⟩,
                   ⟨Role.assistant, chatFallbackUnavailable⟩],
              interview_stage := 6,
              candidate_info := info,
              technical_questions := [questionsFallbackUnavailable],
              current_question_index := 1,
              evaluation_in_progress := b }, ?_, rfl, rfl, rfl⟩
    simp only [run_events, hstep1, hstep2, List.nil_append, List.append_nil]

/-- Witness for C10 at a concrete session. -/
theorem C10_fallback_is_the_question_witness :
    ∃ s2, run_events ⟨false, false⟩ behAllOk
        (⟨[], 5, [("tech_stack", CValue.list ["Python"])], [], 0, false⟩ :
          SessionState)
        [UserEvent.chat "hello", UserEvent.chat "my answer"] =
        some (s2, [⟨questionsFallbackUnavailable, "my answer", ["Python"]⟩]) ∧
      s2.interview_stage = 6 ∧
      s2.current_question_index = 1 ∧
      s2.technical_questions = [questionsFallbackUnavailable] :=
  (C10_fallback_is_the_question behAllOk [] [("tech_stack", CValue.list ["Python"])]
    false ["Python"] "hello" "my answer" rfl (by decide) (by decide)).2

/-- Consuming a literal from the front of its own extension. -/
lemma dropLit_append (p r : List Char) : dropLit p (p ++ r) = some r := by
  simp [dropLit, List.isPrefixOf_iff_prefix, List.prefix_append, List.drop_left]

/-- Reading a string field stops exactly at the closing quote when the
field has no quote and no backslash. -/
lemma takeStrField_append (f r : List Char)
    (hf : ∀ ch ∈ f, ch ≠ '\"' ∧ ch ≠ '\\') :
    takeStrField (f ++ '\"' :: r) = some (f, '\"' :: r) := by
  induction f with
  | nil => simp [takeStrField]
  | cons ch cs ih =>
    have hc := hf ch (List.mem_cons_self ch cs)
    have hcs : ∀ x ∈ cs, x ≠ '\"' ∧ x ≠ '\\' :=
      fun x hx => hf x (List.mem_cons_of_mem ch hx)
    simp [takeStrField, hc.1, hc.2, ih hcs]

/-- Round trip: parsing the canonical serialization of the evaluation
object recovers its three fields exactly. -/
lemma parse_serialize (a b c : String)
    (ha : EvalFieldSafe a) (hb : EvalFieldSafe b) (hc : EvalFieldSafe c) :
    parseEvalJson (serializeEvalJson a b c).toList = some ⟨a, b, c⟩ := by
  have hq : ∀ (s : String), EvalFieldSafe s → ∀ ch ∈ s.data, ch ≠ '\"' ∧ ch ≠ '\\' :=
    fun s hs ch hch => ⟨(hs ch hch).1, (hs ch hch).2.1⟩
  have hdata : (serializeEvalJson a b c).toList =
      litAssessL ++ (a.data ++ (litRespL ++ (b.data ++
        (litFollowL ++ (c.data ++ litEndL))))) := by
    simp [serializeEvalJson, litAssessL, litRespL, litFollowL, litEndL,
      String.toList, String.data_append, List.append_assoc]
  have hdropA : ∀ r : List Char, dropLit litAssessL (litAssessL ++ r) = some r :=
    fun r => dropLit_append _ r
  have hresp : litRespL = '\"' :: litRespTailL := rfl
  have hfollow : litFollowL = '\"' :: litFollowTailL := rfl
  have hend : litEndL = '\"' :: litEndTailL := rfl
  have hdropR : ∀ r : List Char,
      dropLit ('\"' :: litRespTailL) ('\"' :: (litRespTailL ++ r)) = some r :=
    fun r => dropLit_append ('\"' :: litRespTailL) r
  have hdropF : ∀ r : List Char,
      dropLit ('\"' :: litFollowTailL) ('\"' :: (litFollowTailL ++ r)) = some r :=
    fun r => dropLit_append ('\"' :: litFollowTailL) r
  have hdropE0 : dropLit ('\"' :: litEndTailL) ('\"' :: litEndTailL) = some [] :=
    dropLit_append ('\"' :: litEndTailL) []
  simp only [parseEvalJson, hdata, hdropA, hresp, hfollow, hend,
    List.cons_append, List.append_assoc,
    takeStrField_append _ _ (hq a ha), takeStrField_append _ _ (hq b hb),
    takeStrField_append _ _ (hq c hc), hdropR, hdropF, hdropE0]
  rfl

/-- `pyDelOccF` passes over a block holding none of the pattern's first
character. -/
lemma pyDelOccF_skip (p : Char) (pt l2 : List Char) :
    ∀ l1 : List Char, (∀ ch ∈ l1, ch ≠ p) → ∀ n : Nat, l1.length ≤ n →
      pyDelOccF (p :: pt) n (l1 ++ l2) =
        l1 ++ pyDelOccF (p :: pt) (n - l1.length) l2 := by
  intro l1
  induction l1 with
  | nil =>
    intro _ n _
    simp
  | cons ch cs ih =>
    intro hl n hn
    obtain ⟨m, rfl⟩ : ∃ m, n = m + 1 := ⟨n - 1, by simp at hn; omega⟩
    have hcp : ch ≠ p := hl ch (List.mem_cons_self ch cs)
    have hpre : ¬ (p :: pt).isPrefixOf (ch :: (cs ++ l2)) = true := by
      simp [List.isPrefixOf]
      intro hpc
      exact absurd hpc.symm hcp
    have hcs : ∀ x ∈ cs, x ≠ p := fun x hx => hl x (List.mem_cons_of_mem ch hx)
    have hlen : cs.length ≤ m := by simp at hn; omega
    have harith : m + 1 - (cs.length + 1) = m - cs.length := by omega
    simp only [List.cons_append, pyDelOccF, List.length_cons, harith, List.append_eq]
    rw [if_neg hpre, ih hcs m hlen]

/-- `pyDelOccF` deletes the pattern standing at the front. -/
lemma pyDelOccF_head (p : Char) (pt r : List Char) (n : Nat) :
    pyDelOccF (p :: pt) (n + 1) ((p :: pt) ++ r) = pyDelOccF (p :: pt) n r := by
  have hpre : (p :: pt).isPrefixOf ((p :: pt) ++ r) = true := by
    rw [List.isPrefixOf_iff_prefix]
    exact List.prefix_append _ _
  have hshape : (p :: pt) ++ r = p :: (pt ++ r) := rfl
  rw [hshape] at hpre
  simp only [List.cons_append, pyDelOccF, hpre, if_true, ite_true]
  simp [List.drop_left]

/-- Stripping absorbs a leading whitespace character. -/
lemma pyStripChars_cons_ws (c : Char) (l : List Char) (hc : pyIsSpace c = true) :
    pyStripChars (c :: l) = pyStripChars l := by
  simp [pyStripChars, List.dropWhile_cons, hc]

/-- Stripping absorbs a trailing whitespace character. -/
lemma pyStripChars_append_ws (c : Char) (l : List Char) (hc : pyIsSpace c = true) :
    pyStripChars (l ++ [c]) = pyStripChars l := by
  simp only [pyStripChars, List.dropWhile_append]
  by_cases he : (l.dropWhile pyIsSpace).isEmpty
  · simp [he, List.dropWhile_cons, hc, List.isEmpty_iff.mp he]
  · simp [he, List.reverse_append, List.dropWhile_cons, hc]

/-- A list starting and ending in non-whitespace is unchanged by
stripping. -/
lemma pyStripChars_no_ws (x : Char) (mid : List Char) (y : Char)
    (hx : ¬ pyIsSpace x = true) (hy : ¬ pyIsSpace y = true) :
    pyStripChars (x :: (mid ++ [y])) = x :: (mid ++ [y]) := by
  simp [pyStripChars, List.dropWhile_cons, hx, hy, List.reverse_append,
    List.dropWhile_append, List.isEmpty_iff]

/-- The canonical serialization of safe fields holds no backtick, so
fence stripping cannot disturb it. -/
lemma serialize_no_backtick (a b c : String)
    (ha : EvalFieldSafe a) (hb : EvalFieldSafe b) (hc : EvalFieldSafe c) :
    ∀ ch ∈ (serializeEvalJson a b c).toList, ch ≠ '`' := by
  intro ch hch
  have hmem : ch ∈ litAssess.toList ∨ ch ∈ a.data ∨ ch ∈ litResp.toList ∨
      ch ∈ b.data ∨ ch ∈ litFollow.toList ∨ ch ∈ c.data ∨ ch ∈ litEnd.toList := by
    simpa [serializeEvalJson, String.toList, String.data_append, List.mem_append,
      or_assoc] using hch
  have hlit1 : ∀ x ∈ litAssess.toList, x ≠ '`' := by decide
  have hlit2 : ∀ x ∈ litResp.toList, x ≠ '`' := by decide
  have hlit3 : ∀ x ∈ litFollow.toList, x ≠ '`' := by decide
  have hlit4 : ∀ x ∈ litEnd.toList, x ≠ '`' := by decide
  rcases hmem with h | h | h | h | h | h | h
  · exact hlit1 ch h
  · exact (ha ch h).2.2
  · exact hlit2 ch h
  · exact (hb ch h).2.2
  · exact hlit3 ch h
  · exact (hc ch h).2.2
  · exact hlit4 ch h

/-- The Anthropic helper's cleaning removes the code fences around a
backtick-free payload and strips the surrounding whitespace. -/
lemma anthropic_clean_fenced (X : String) (hx : ∀ ch ∈ X.toList, ch ≠ '`') :
    anthropic_clean (fencedText X) = pyStripChars X.toList := by
  have hsafe : ∀ ch ∈ '\n' :: X.toList ++ ['\n'], ch ≠ '`' := by
    intro ch hch
    rcases List.mem_cons.mp hch with rfl | hch2
    · decide
    · rcases List.mem_append.mp hch2 with h | h
      · exact hx ch h
      · simp at h
        subst h
        decide
  have hT : (fencedText X).toList =
      ('`' :: "``json".toList) ++ (('\n' :: X.toList ++ ['\n']) ++ ('`' :: "``".toList)) := by
    simp [fencedText, String.toList, String.data_append, List.append_assoc]
  have hlen1 : (fencedText X).toList.length = (X.toList.length + 11) + 1 := by
    rw [hT]
    simp
  have h9 : pyDelOccF ('`' :: "``json".toList) 9 ('`' :: "``".toList) =
      '`' :: "``".toList := by decide
  have h1 : pyReplaceDel "```json".toList (fencedText X).toList =
      ('\n' :: X.toList ++ ['\n']) ++ ('`' :: "``".toList) := by
    unfold pyReplaceDel
    rw [hlen1, hT, show "```json".toList = '`' :: "``json".toList from rfl,
      pyDelOccF_head,
      pyDelOccF_skip '`' "``json".toList ('`' :: "``".toList)
        ('\n' :: X.toList ++ ['\n']) hsafe (X.toList.length + 11)
        (by simp)]
    have hl2 : ('\n' :: X.toList ++ ['\n']).length = X.toList.length + 2 := by simp
    rw [hl2, show X.toList.length + 11 - (X.toList.length + 2) = 9 by omega, h9]
  have h3 : pyDelOccF ('`' :: "``".toList) 3 ('`' :: "``".toList) = [] := by decide
  have h2 : pyReplaceDel "```".toList
      (('\n' :: X.toList ++ ['\n']) ++ ('`' :: "``".toList)) =
      '\n' :: X.toList ++ ['\n'] := by
    unfold pyReplaceDel
    have hlen2 : ((('\n' :: X.toList ++ ['\n']) ++ ('`' :: "``".toList))).length =
        X.toList.length + 5 := by
      simp
    rw [hlen2, show "```".toList = '`' :: "``".toList from rfl,
      pyDelOccF_skip '`' "``".toList ('`' :: "``".toList)
        ('\n' :: X.toList ++ ['\n']) hsafe (X.toList.length + 5)
        (by simp)]
    have hl2 : ('\n' :: X.toList ++ ['\n']).length = X.toList.length + 2 := by simp
    rw [hl2, show X.toList.length + 5 - (X.toList.length + 2) = 3 by omega, h3]
    simp
  unfold anthropic_clean
  rw [h1, h2]
  simp only [List.cons_append]
  rw [pyStripChars_cons_ws '\n' _ (by decide),
    pyStripChars_append_ws '\n' _ (by decide)]

/-- The canonical serialization starts with a brace and ends with a
brace, so stripping leaves it unchanged. -/
lemma strip_serialize (a b c : String) :
    pyStripChars (serializeEvalJson a b c).toList =
      (serializeEvalJson a b c).toList := by
  have hshape : (serializeEvalJson a b c).toList =
      '\x7b' :: (("\"assessment\": \"".toList ++ (a.data ++ (litRespL ++
        (b.data ++ (litFollowL ++ (c.data ++ ['\"'])))))) ++ ['\x7d']) := by
    simp [serializeEvalJson, litRespL, litFollowL, litResp, litFollow,
      litAssess, litEnd, String.toList, String.data_append, List.append_assoc]
  rw [hshape, pyStripChars_no_ws _ _ _ (by decide) (by decide)]

/-- Code-fenced text never parses as the evaluation object: the leading
backtick is rejected at once (as `json.loads` rejects it). -/
lemma parse_fenced_none (X : String) :
    parseEvalJson (fencedText X).toList = none := by
  have hT : (fencedText X).toList =
      '`' :: ("``json\n".toList ++ (X.toList ++ "\n```".toList)) := by
    simp [fencedText, String.toList, String.data_append, List.append_assoc]
  have hpre : litAssessL.isPrefixOf ((fencedText X).toList) = false := by
    rw [hT]
    rfl
  have hpre2 : ¬ litAssessL <+: (fencedText X).data := by
    intro hp
    have h2 := List.isPrefixOf_iff_prefix.mpr hp
    rw [show (fencedText X).data = (fencedText X).toList from rfl, hpre] at h2
    exact Bool.noConfusion h2
  simp [parseEvalJson, dropLit, hpre2]

/-- The Anthropic helper's clean-then-parse pipeline recovers the three
fields from a fenced canonical payload. -/
lemma anthropic_parses_fenced (a b c : String)
    (ha : EvalFieldSafe a) (hb : EvalFieldSafe b) (hc : EvalFieldSafe c) :
    parseEvalJson (anthropic_clean (fencedText (serializeEvalJson a b c))) =
      some ⟨a, b, c⟩ := by
  rw [anthropic_clean_fenced _ (serialize_no_backtick a b c ha hb hc),
    strip_serialize, parse_serialize a b c ha hb hc]

/-- Counterexample to C4: when the primary (OpenAI) provider answers the
evaluation request with the canonical JSON wrapped in ```json fences,
`evaluate_technical_response` does not return the inner fields — the
OpenAI helper parses without stripping fences, so its fixed
parse-failure fallback is returned instead. -/
theorem C4_fenced_counterexample :
    bridge_evaluate_technical_response ⟨true, true⟩ behFencedEval "q" "a" ["Python"] =
      Except.ok openaiEvalParseFallback ∧
    openaiEvalParseFallback ≠ (⟨"A", "B", "C"⟩ : EvalResult) := by
  constructor
  · rfl
  · decide

/-- C4 as amended: the fenced-JSON round trip holds only when the
secondary (Anthropic) provider supplies the response: its helper strips
the ```json fences and the parsed object's fields equal the inner
JSON's fields exactly, whether Anthropic answered as the rescue after a
primary failure or as the only configured provider.  When the primary
(OpenAI) provider supplies the fenced response, its helper does not
strip fences, the parse fails, and its fixed parse-failure fallback is
returned; bare (unfenced) canonical JSON from the primary does round
trip exactly. -/
theorem C4_eval_fence_parsing (cfg : Config) (beh : Behaviors) (q ans : String)
    (ts : List String) (a b c : String)
    (ha : EvalFieldSafe a) (hb : EvalFieldSafe b) (hc : EvalFieldSafe c) :
    (∀ e, cfg.has_openai = true → cfg.has_anthropic = true →
      beh.oai.evalText q ans ts = Except.error e →
      beh.ant.evalText q ans ts =
        Except.ok (fencedText (serializeEvalJson a b c)) →
      bridge_evaluate_technical_response cfg beh q ans ts =
        Except.ok ⟨a, b, c⟩) ∧
    (cfg.has_openai = false → cfg.has_anthropic = true →
      beh.ant.evalText q ans ts =
        Except.ok (fencedText (serializeEvalJson a b c)) →
      bridge_evaluate_technical_response cfg beh q ans ts =
        Except.ok ⟨a, b, c⟩) ∧
    (cfg.has_openai = true →
      beh.oai.evalText q ans ts =
        Except.ok (fencedText (serializeEvalJson a b c)) →
      bridge_evaluate_technical_response cfg beh q ans ts =
        Except.ok openaiEvalParseFallback) ∧
    (cfg.has_openai = true →
      beh.oai.evalText q ans ts = Except.ok (serializeEvalJson a b c) →
      bridge_evaluate_technical_response cfg beh q ans ts =
        Except.ok ⟨a, b, c⟩) := by
  have hfenced : parseEvalJson (fencedText (serializeEvalJson a b c)).data = none :=
    parse_fenced_none _
  have hbare : parseEvalJson (serializeEvalJson a b c).data = some ⟨a, b, c⟩ :=
    parse_serialize a b c ha hb hc
  have hant : parseEvalJson (anthropic_clean (fencedText (serializeEvalJson a b c))) =
      some ⟨a, b, c⟩ := anthropic_parses_fenced a b c ha hb hc
  refine ⟨?_, ?_, ?_, ?_⟩
  · intro e h1 h2 h3 h4
    simp [bridge_evaluate_technical_response, openai_evaluate_technical_response,
      anthropic_evaluate_technical_response, h1, h2, h3, h4, hant]
  · intro h1 h2 h3
    simp [bridge_evaluate_technical_response,
      anthropic_evaluate_technical_response, h1, h2, h3, hant]
  · intro h1 h2
    simp [bridge_evaluate_technical_response, openai_evaluate_technical_response,
      h1, h2, hfenced]
  · intro h1 h2
    simp [bridge_evaluate_technical_response, openai_evaluate_technical_response,
      h1, h2, hbare]

/-- Witness for C4 as amended, at a concrete fenced payload through each
configuration. -/
theorem C4_eval_fence_parsing_witness :
    bridge_evaluate_technical_response ⟨true, true⟩
        ⟨⟨fun _ _ _ => .ok "", fun _ => .ok "", fun _ _ _ => .error "boom"⟩,
         ⟨fun _ _ _ => .ok "", fun _ => .ok "",
          fun _ _ _ => .ok (fencedText (serializeEvalJson "A" "B" "C"))⟩⟩
        "q" "a" ["Python"] = Except.ok ⟨"A", "B", "C"⟩ ∧
    bridge_evaluate_technical_response ⟨false, true⟩ behFencedEval
        "q" "a" ["Python"] = Except.ok ⟨"A", "B", "C"⟩ ∧
    bridge_evaluate_technical_response ⟨true, true⟩ behFencedEval
        "q" "a" ["Python"] = Except.ok openaiEvalParseFallback :=
  ⟨(C4_eval_fence_parsing ⟨true, true⟩
      ⟨⟨fun _ _ _ => .ok "", fun _ => .ok "", fun _ _ _ => .error "boom"⟩,
       ⟨fun _ _ _ => .ok "", fun _ => .ok "",
        fun _ _ _ => .ok (fencedText (serializeEvalJson "A" "B" "C"))⟩⟩
      "q" "a" ["Python"] "A" "B" "C" (by unfold EvalFieldSafe; decide) (by unfold EvalFieldSafe; decide)
      (by unfold EvalFieldSafe; decide)).1
      "boom" rfl rfl rfl rfl,
   (C4_eval_fence_parsing ⟨false, true⟩ behFencedEval "q" "a" ["Python"]
      "A" "B" "C" (by unfold EvalFieldSafe; decide) (by unfold EvalFieldSafe; decide)
      (by unfold EvalFieldSafe; decide)).2.1 rfl rfl rfl,
   (C4_eval_fence_parsing ⟨true, true⟩ behFencedEval "q" "a" ["Python"]
      "A" "B" "C" (by unfold EvalFieldSafe; decide) (by unfold EvalFieldSafe; decide)
      (by unfold EvalFieldSafe; decide)).2.2.1 rfl rfl⟩
